import Mathlib

/-
  Verification development for the botsim repository.

  The engine under `src/main.ts` (and the maze variant in
  `src/unnamed/part_001`) is embedded shallowly:

  * JavaScript numbers are modeled as exact rationals (`ℚ`); `Math.PI` is
    modeled by the exact value of the IEEE-754 double closest to pi.
  * The transcendental primitives `Math.cos`, `Math.sin`, `Math.atan2` are
    abstracted into a `Trig` record of arbitrary rational-valued functions;
    every theorem about the engine is proved for all such records.
  * The comparisons `Math.sqrt d < c` (with `c ≥ 0` and `d` a sum of
    squares) are modeled by the exactly equivalent comparison `d < c ^ 2`.
  * Strings are modeled as `List Char`; JavaScript `undefined` obtained by
    out-of-range indexing is modeled by `Option`.
  * `Date.now()` is passed in as an explicit integer parameter.

  The Batteries rational operations are `@[irreducible]`, which only blocks
  kernel evaluation; they are restored to the default reducibility so that
  concrete states can be evaluated with `decide`.
-/

set_option allowUnsafeReducibility true
attribute [semireducible] Rat.add Rat.sub Rat.mul Rat.div Rat.inv Rat.neg Rat.floor Rat.ceil

set_option maxHeartbeats 1000000

/-! ### JavaScript numeric primitives -/

/-- Truncation toward zero, as used by the JavaScript `%` operator. -/
def ratTrunc (q : ℚ) : ℤ := if q < 0 then -⌊-q⌋ else ⌊q⌋

/-- The JavaScript remainder operator `a % b` (sign follows the dividend). -/
def jsMod (a b : ℚ) : ℚ := a - b * (ratTrunc (a / b) : ℚ)

/-- `Math.sign`. -/
def ratSign (q : ℚ) : ℚ := if q < 0 then -1 else if 0 < q then 1 else 0

/-- The exact value of the IEEE-754 double `Math.PI`. -/
def piQ : ℚ := 884279719003555 / 281474976710656

/-! ### Decimal rendering (`toString` / `toFixed`) and parsing
     (`parseFloat` / `parseInt`) over `List Char` -/

/-- Numeric value of a decimal digit character. -/
def digitVal (c : Char) : ℕ := c.toNat - 48

/-- Value of a string of decimal digits (most significant first). -/
def digitsVal (l : List Char) : ℕ := l.foldl (fun acc c => acc * 10 + digitVal c) 0

/-- Decimal digits of `n`, most significant first; `[]` for `n = 0`.
    Structural recursion on a fuel argument so that the kernel can
    evaluate it. -/
def natToCharsAux : ℕ → ℕ → List Char
  | 0, _ => []
  | fuel + 1, n =>
    if n = 0 then [] else natToCharsAux fuel (n / 10) ++ [Nat.digitChar (n % 10)]

/-- Decimal rendering of a natural number. -/
def natToChars (n : ℕ) : List Char := if n = 0 then ['0'] else natToCharsAux (n + 1) n

/-- Decimal rendering of an integer (JavaScript `Number.prototype.toString`
    for integral values). -/
def intToChars (i : ℤ) : List Char :=
  if i < 0 then '-' :: natToChars i.natAbs else natToChars i.natAbs

/-- Left-pad a digit string with zeros to length `k`. -/
def padLeftZeros (k : ℕ) (l : List Char) : List Char :=
  List.replicate (k - l.length) '0' ++ l

/-- The magnitude of `q` scaled by `10^k` and rounded half-up, as a natural
    number: the digit source of `q.toFixed(k)`. -/
def fixN (q : ℚ) (k : ℕ) : ℕ := (⌊|q| * 10 ^ k + 1/2⌋).toNat

/-- `Number.prototype.toFixed(k)`: per the ECMAScript specification the sign
    is extracted first and the magnitude is rounded half-up to `k` decimal
    places. -/
def toFixedChars (q : ℚ) (k : ℕ) : List Char :=
  let sgn : List Char := if q < 0 then ['-'] else []
  sgn ++ natToChars (fixN q k / 10 ^ k) ++ '.' :: padLeftZeros k (natToChars (fixN q k % 10 ^ k))

/-- The rational value denoted by `q.toFixed(k)`: `q` rounded (half-up on
    the magnitude) to `k` decimal places. -/
def roundFix (q : ℚ) (k : ℕ) : ℚ :=
  (if q < 0 then -1 else 1) * (fixN q k : ℚ) / 10 ^ k

/-- Split a leading `+`/`-` sign off a character list. -/
def splitSign (l : List Char) : ℤ × List Char :=
  match l with
  | [] => (1, [])
  | c :: r => if c = '-' then (-1, r) else if c = '+' then (1, r) else (1, c :: r)

/-- Model of JavaScript `parseFloat` (`none` models `NaN`): an optional
    sign, then the longest prefix `digits [. digits]`; `NaN` when no digits
    are present.  The exponent and `Infinity` forms of the full grammar are
    not used by the engine's tokens and are omitted. -/
def parseFloatChars (l : List Char) : Option ℚ :=
  let sr := splitSign l
  let ds := sr.2.takeWhile Char.isDigit
  let rest := sr.2.dropWhile Char.isDigit
  if rest.head? = some '.' then
    let fs := rest.tail.takeWhile Char.isDigit
    if ds.isEmpty && fs.isEmpty then none
    else some ((sr.1 : ℚ) * ((digitsVal ds : ℚ) + (digitsVal fs : ℚ) / 10 ^ fs.length))
  else if ds.isEmpty then none else some ((sr.1 : ℚ) * (digitsVal ds : ℚ))

/-- Model of JavaScript `parseInt` in base 10 (`none` models `NaN`): an
    optional sign, then the longest prefix of digits; trailing characters
    are ignored. -/
def parseIntChars (l : List Char) : Option ℤ :=
  let sr := splitSign l
  let ds := sr.2.takeWhile Char.isDigit
  if ds.isEmpty then none else some (sr.1 * (digitsVal ds : ℤ))

/-! ### Game constants and map (src/main.ts) -/

def MAP_WIDTH : ℤ := 16
def MAP_HEIGHT : ℤ := 10
def TILE_SIZE : ℚ := 1

/-- The map layout string array from `src/main.ts` (note: row 4 has only
    15 characters in the source). -/
def INITIAL_MAP_LAYOUT : List (List Char) :=
  ["################".data,
   "#P.............#".data,
   "#..##........E.#".data,
   "#...#..........#".data,
   "#...#....######".data,
   "#..............#".data,
   "#......E.......#".data,
   "#..............#".data,
   "#..............#".data,
   "################".data]

def VIEW_WIDTH_CHARS : ℕ := 21
def VIEW_HEIGHT_CHARS : ℕ := 7
def FOV : ℚ := piQ / 3
def PLAYER_ROTATION_SPEED : ℚ := piQ / 16
def PLAYER_MOVE_SPEED : ℚ := 3/10
def ENEMY_MOVE_SPEED : ℚ := 3/20
def MAX_RAY_DEPTH : ℚ := 20
def PLAYER_MAX_HEALTH : ℤ := 5
def ENEMY_MAX_HEALTH : ℤ := 3
def SHOOT_DAMAGE : ℤ := 1
def SHOOT_RANGE : ℚ := 8

/-- `getMapTile` from `src/main.ts`.  A JavaScript string lookup at an
    in-range row but out-of-range column yields `undefined`, modeled as
    `none`. -/
def getMapTile (x y : ℚ) : Option Char :=
  let mapX : ℤ := ⌊x / TILE_SIZE⌋
  let mapY : ℤ := ⌊y / TILE_SIZE⌋
  if mapX < 0 ∨ MAP_WIDTH ≤ mapX ∨ mapY < 0 ∨ MAP_HEIGHT ≤ mapY then some '#'
  else (INITIAL_MAP_LAYOUT.get? mapY.toNat).bind fun row => row.get? mapX.toNat

/-- `isWall` from `src/main.ts` (`undefined === "#"` is `false`). -/
def isWall (x y : ℚ) : Bool := getMapTile x y == some '#'

/-! ### Game state -/

structure EnemyState where
  x : ℚ
  y : ℚ
  hp : ℤ
  angle : ℚ
  isActive : Bool
deriving DecidableEq

structure GameState where
  px : ℚ
  py : ℚ
  pa : ℚ
  php : ℤ
  enemies : List EnemyState
  message : String
  gameOver : Bool
  isMovingForward : Bool
  isTurningLeft : Bool
  isTurningRight : Bool
  lastInteractionTime : ℤ
deriving DecidableEq

/-- Oracle for the transcendental primitives `Math.cos`, `Math.sin` and
    `Math.atan2`; theorems hold for every choice of oracle. -/
structure Trig where
  cos : ℚ → ℚ
  sin : ℚ → ℚ
  atan2 : ℚ → ℚ → ℚ

/-- A concrete oracle used to instantiate closed evaluations. -/
def trivialTrig : Trig := ⟨fun _ => 1, fun _ => 0, fun _ _ => 0⟩

/-! ### Initial game setup (src/main.ts `getInitialGameState`) -/

/-- The scan of the layout for the last `'P'` marker (source default
    `(1.5, 1.5)` when absent). -/
def scannedPlayerPos : ℚ × ℚ :=
  INITIAL_MAP_LAYOUT.enum.foldl
    (fun acc yrow => yrow.2.enum.foldl
      (fun acc2 xc =>
        if xc.2 = 'P' then
          ((xc.1 : ℚ) * TILE_SIZE + TILE_SIZE / 2, (yrow.1 : ℚ) * TILE_SIZE + TILE_SIZE / 2)
        else acc2)
      acc)
    (3/2, 3/2)

/-- The scan of the layout for `'E'` markers, in row-major order. -/
def scannedEnemies : List EnemyState :=
  INITIAL_MAP_LAYOUT.enum.flatMap fun yrow =>
    yrow.2.enum.filterMap fun xc =>
      if xc.2 = 'E' then
        some { x := (xc.1 : ℚ) * TILE_SIZE + TILE_SIZE / 2,
               y := (yrow.1 : ℚ) * TILE_SIZE + TILE_SIZE / 2,
               hp := ENEMY_MAX_HEALTH, angle := 0, isActive := true }
      else none

/-- The inactive off-map sentinel enemy pushed by the padding loop. -/
def sentinelEnemy : EnemyState := { x := -1, y := -1, hp := 0, angle := 0, isActive := false }

/-- The source's `while (enemies.length < 2) push(sentinel)` loop, unrolled
    for the target length 2. -/
def padEnemies (es : List EnemyState) : List EnemyState :=
  match es with
  | [] => [sentinelEnemy, sentinelEnemy]
  | [e] => [e, sentinelEnemy]
  | es => es

def getInitialGameState (now : ℤ) : GameState :=
  { px := scannedPlayerPos.1
    py := scannedPlayerPos.2
    pa := piQ / 4
    php := PLAYER_MAX_HEALTH
    enemies := (padEnemies scannedEnemies).take 2
    message := "Game started! Use buttons to play."
    gameOver := false
    isMovingForward := false
    isTurningLeft := false
    isTurningRight := false
    lastInteractionTime := now }

/-! ### Turn resolver (src/main.ts `updateGameState`), split into the
     source's phases in source order -/

/-- The `switch (action)` toggle block. -/
def applyToggles (s : GameState) (action : String) : GameState :=
  if action = "toggle_forward" then { s with isMovingForward := !s.isMovingForward }
  else if action = "toggle_turn_left" then { s with isTurningLeft := !s.isTurningLeft }
  else if action = "toggle_turn_right" then { s with isTurningRight := !s.isTurningRight }
  else s

/-- Continuous turning plus the `(pa + 2π) % (2π)` normalization. -/
def applyTurning (s : GameState) : GameState :=
  let pa1 := if s.isTurningLeft then s.pa - PLAYER_ROTATION_SPEED else s.pa
  let pa2 := if s.isTurningRight then pa1 + PLAYER_ROTATION_SPEED else pa1
  { s with pa := jsMod (pa2 + 2 * piQ) (2 * piQ) }

/-- Continuous forward movement with per-axis collision checks. -/
def applyMovement (T : Trig) (s : GameState) : GameState :=
  if s.isMovingForward then
    let newX := s.px + T.cos s.pa * PLAYER_MOVE_SPEED
    let newY := s.py + T.sin s.pa * PLAYER_MOVE_SPEED
    let px1 := if isWall newX s.py = false then newX else s.px
    let py1 := if isWall px1 newY = false then newY else s.py
    { s with px := px1, py := py1 }
  else s

structure ShootAcc where
  message : String
  shotHit : Bool
deriving DecidableEq

/-- Body of the `forEach` in the shoot branch.  `Math.sqrt(dx²+dy²) <
    SHOOT_RANGE` is modeled squared. -/
def shootStep (T : Trig) (px py pa : ℚ) (acc : ShootAcc) (e : EnemyState) :
    ShootAcc × EnemyState :=
  if e.isActive = false then (acc, e)
  else
    let dx := e.x - px
    let dy := e.y - py
    if dx ^ 2 + dy ^ 2 < SHOOT_RANGE ^ 2 then
      let angleToEnemy := T.atan2 dy dx
      let angleDiff := jsMod (pa - angleToEnemy + piQ) (2 * piQ) - piQ
      if |angleDiff| < FOV / 4 then
        let hp1 := e.hp - SHOOT_DAMAGE
        if hp1 ≤ 0 then
          ({ message := "Enemy eliminated!", shotHit := true },
           { e with hp := hp1, isActive := false })
        else
          ({ message := "Hit enemy! (HP: " ++ toString hp1 ++ ")", shotHit := true },
           { e with hp := hp1 })
      else (acc, e)
    else (acc, e)

def shootEnemies (T : Trig) (px py pa : ℚ) : ShootAcc → List EnemyState →
    ShootAcc × List EnemyState
  | acc, [] => (acc, [])
  | acc, e :: es =>
    let r1 := shootStep T px py pa acc e
    let r2 := shootEnemies T px py pa r1.1 es
    (r2.1, r1.2 :: r2.2)

/-- The `if (action === "shoot")` branch. -/
def applyShoot (T : Trig) (s : GameState) (action : String) : GameState :=
  if action = "shoot" then
    let r := shootEnemies T s.px s.py s.pa { message := "Pew!", shotHit := false } s.enemies
    { s with enemies := r.2, message := if r.1.shotHit then r.1.message else "Missed!" }
  else s

structure AIAcc where
  php : ℤ
  message : String
  gameOver : Bool
deriving DecidableEq

/-- Body of the enemy-AI `forEach`.  Both `Math.sqrt` comparisons (contact
    range `0.5 * TILE_SIZE`, aggro range `5 * TILE_SIZE`) are modeled
    squared. -/
def enemyAI1 (T : Trig) (px py : ℚ) (acc : AIAcc) (e : EnemyState) : AIAcc × EnemyState :=
  if e.isActive = false ∨ acc.gameOver = true then (acc, e)
  else
    let dx := px - e.x
    let dy := py - e.y
    let d2 := dx ^ 2 + dy ^ 2
    if d2 < (1/2 * TILE_SIZE) ^ 2 then
      let php1 := acc.php - 1
      if php1 ≤ 0 then
        ({ php := php1, message := "You died! Game Over.", gameOver := true }, e)
      else
        ({ php := php1, message := "Ouch! Enemy hit you! (HP: " ++ toString php1 ++ ")",
           gameOver := acc.gameOver }, e)
    else if d2 < (5 * TILE_SIZE) ^ 2 then
      let angleToPlayer := T.atan2 dy dx
      let newEnemyX := e.x + T.cos angleToPlayer * ENEMY_MOVE_SPEED
      let newEnemyY := e.y + T.sin angleToPlayer * ENEMY_MOVE_SPEED
      let x1 := if isWall newEnemyX e.y = false then newEnemyX else e.x
      let y1 := if isWall x1 newEnemyY = false then newEnemyY else e.y
      (acc, { e with x := x1, y := y1 })
    else (acc, e)

def enemiesAI (T : Trig) (px py : ℚ) : AIAcc → List EnemyState → AIAcc × List EnemyState
  | acc, [] => (acc, [])
  | acc, e :: es =>
    let r1 := enemyAI1 T px py acc e
    let r2 := enemiesAI T px py r1.1 es
    (r2.1, r1.2 :: r2.2)

/-- The enemy-AI phase. -/
def applyEnemyAI (T : Trig) (s : GameState) : GameState :=
  let r := enemiesAI T s.px s.py
    { php := s.php, message := s.message, gameOver := s.gameOver } s.enemies
  { s with php := r.1.php, message := r.1.message, gameOver := r.1.gameOver, enemies := r.2 }

/-- The all-enemies-defeated win check. -/
def applyWinCheck (s : GameState) : GameState :=
  if s.enemies.all (fun e => !e.isActive) && !s.gameOver then
    { s with message := "All enemies defeated! You WIN!", gameOver := true }
  else s

/-- `updateGameState` from `src/main.ts`.  `Date.now()` is the explicit
    parameter `now`; the deep copy is value semantics. -/
def updateGameState (T : Trig) (now : ℤ) (s : GameState) (action : String) : GameState :=
  let s1 := { s with message := "", lastInteractionTime := now }
  if s1.gameOver then { s1 with message := "Game Over! Start a new game with /doom." }
  else if s1.php ≤ 0 then { s1 with gameOver := true, message := "You died! Game Over." }
  else applyWinCheck (applyEnemyAI T
    (applyShoot T (applyMovement T (applyTurning (applyToggles s1 action))) action))

/-! ### State codec (src/main.ts `serializeGameState` / `deserializeGameState`) -/

/-- Boolean flag rendering `"1"` / `"0"`. -/
def boolChar (b : Bool) : List Char := if b then ['1'] else ['0']

/-- The four fields pushed per enemy. -/
def serializeEnemy (e : EnemyState) : List (List Char) :=
  [toFixedChars e.x 2, toFixedChars e.y 2, intToChars e.hp, boolChar e.isActive]

/-- `serializeGameState`: the pipe-joined field sequence. -/
def serializeGameState (s : GameState) : List Char :=
  List.intercalate ['|']
    ([toFixedChars s.px 2, toFixedChars s.py 2, toFixedChars s.pa 3,
      intToChars s.php, boolChar s.isMovingForward, boolChar s.isTurningLeft,
      boolChar s.isTurningRight]
     ++ s.enemies.flatMap serializeEnemy
     ++ [boolChar s.gameOver, intToChars s.lastInteractionTime])

/-- The state actually built by `deserializeGameState`: numeric fields are
    `Option`-valued because JavaScript stores the `NaN` results of failed
    parses directly in the object. -/
structure RawEnemy where
  x : Option ℚ
  y : Option ℚ
  hp : Option ℤ
  angle : ℚ
  isActive : Bool
deriving DecidableEq

structure RawGameState where
  px : Option ℚ
  py : Option ℚ
  pa : Option ℚ
  php : Option ℤ
  isMovingForward : Bool
  isTurningLeft : Bool
  isTurningRight : Bool
  enemies : List RawEnemy
  message : String
  gameOver : Bool
  lastInteractionTime : Option ℤ
deriving DecidableEq

/-- `parseFloat(parts[i])`; an out-of-range index yields `undefined`, whose
    parse is `NaN` (`none`). -/
def pFloat (parts : List (List Char)) (i : ℕ) : Option ℚ :=
  (parts.get? i).bind parseFloatChars

/-- `parseInt(parts[i])`. -/
def pInt (parts : List (List Char)) (i : ℕ) : Option ℤ :=
  (parts.get? i).bind parseIntChars

/-- `parts[i] === "1"` (`undefined === "1"` is `false`). -/
def pFlag (parts : List (List Char)) (i : ℕ) : Bool :=
  parts.get? i == some ['1']

/-- The fixed 2-iteration enemy-reading loop with its running index: a
    sub-record is consumed only when `parts.length > currentIdx + 3`,
    otherwise an inert default enemy is pushed.  Returns the enemies and
    the final index. -/
def readEnemies (parts : List (List Char)) : ℕ → ℕ → List RawEnemy × ℕ
  | 0, idx => ([], idx)
  | k + 1, idx =>
    if idx + 3 < parts.length then
      let e : RawEnemy :=
        { x := pFloat parts idx, y := pFloat parts (idx + 1),
          hp := pInt parts (idx + 2), angle := 0, isActive := pFlag parts (idx + 3) }
      let r := readEnemies parts k (idx + 4)
      (e :: r.1, r.2)
    else
      let r := readEnemies parts k idx
      ({ x := some 0, y := some 0, hp := some 0, angle := 0, isActive := false } :: r.1, r.2)

/-- `deserializeGameState`: split on `'|'`, parse positionally, then the
    final validation, which checks `px`, `php` and the enemy `x` fields
    only. -/
def deserializeGameState (cs : List Char) : Option RawGameState :=
  let parts := cs.splitOn '|'
  let er := readEnemies parts 2 7
  let st : RawGameState :=
    { px := pFloat parts 0, py := pFloat parts 1, pa := pFloat parts 2,
      php := pInt parts 3,
      isMovingForward := pFlag parts 4, isTurningLeft := pFlag parts 5,
      isTurningRight := pFlag parts 6,
      enemies := er.1, message := "", gameOver := pFlag parts er.2,
      lastInteractionTime := pInt parts (er.2 + 1) }
  if st.px.isNone || st.php.isNone || st.enemies.any (fun e => e.x.isNone) then none
  else some st

/-! ### Raycasting (src/main.ts `renderGameView`, wall loop) -/

/-- The ray angle cast for screen column `col`:
    `pa - FOV/2 + (col / VIEW_WIDTH_CHARS) * FOV`. -/
def rayAngle (pa : ℚ) (col : ℕ) : ℚ :=
  pa - FOV / 2 + ((col : ℚ) / (VIEW_WIDTH_CHARS : ℚ)) * FOV

/-- The 0.1-step ray march: repeatedly advance while no wall is hit and the
    travelled distance is below `MAX_RAY_DEPTH`.  The loop body runs at most
    200 times, so fuel 201 makes the fuel irrelevant. -/
def rayMarch (px py eyeX eyeY : ℚ) : ℕ → ℚ → Option ℚ
  | 0, _ => none
  | fuel + 1, d =>
    if d < MAX_RAY_DEPTH then
      let d1 := d + 1/10
      if isWall (px + eyeX * d1) (py + eyeY * d1) then some d1
      else rayMarch px py eyeX eyeY fuel d1
    else none

/-- The per-column wall distance recorded in `wallDistances`: the raw hit
    distance times the fish-eye correction `cos(rayAngle - pa)`. -/
def castRay (T : Trig) (px py pa : ℚ) (col : ℕ) : Option ℚ :=
  let a := rayAngle pa col
  (rayMarch px py (T.cos a) (T.sin a) 201 0).map (fun d => d * T.cos (a - pa))

/-! ### The maze variant (src/unnamed/part_001): map and red-cuboid AI -/

def MAZE_LAYOUT : List (List Char) :=
  ["############".data,
   "#P.#.......#".data,
   "#.#.####.#.#".data,
   "#.#....#.#.#".data,
   "#.####.#.#R#".data,
   "#......#...#".data,
   "############".data]

def MAZE_WIDTH : ℤ := 12
def MAZE_HEIGHT : ℤ := 7

/-- `getMapTile` of the maze variant (same shape, maze layout and bounds). -/
def getMazeTile (x y : ℚ) : Option Char :=
  let mapX : ℤ := ⌊x / TILE_SIZE⌋
  let mapY : ℤ := ⌊y / TILE_SIZE⌋
  if mapX < 0 ∨ MAZE_WIDTH ≤ mapX ∨ mapY < 0 ∨ MAZE_HEIGHT ≤ mapY then some '#'
  else (MAZE_LAYOUT.get? mapY.toNat).bind fun row => row.get? mapX.toNat

def isWallMaze (x y : ℚ) : Bool := getMazeTile x y == some '#'

/-- Intermediate position/moved flag of the red-cuboid AI block. -/
structure CuboidStep where
  x : ℚ
  y : ℚ
  moved : Bool

/-- The red-cuboid chase AI from `src/unnamed/part_001` (lines 329-363):
    try one tile along the dominant axis, then one tile along the Y axis if
    not yet moved, then one tile along the X axis if Y was the preferred
    axis but blocked. -/
def redCuboidAI (px py cx cy : ℚ) : ℚ × ℚ :=
  let dx := px - cx
  let dy := py - cy
  let s1 : CuboidStep :=
    if |dy| < |dx| then
      if isWallMaze (cx + ratSign dx * TILE_SIZE) cy = false then
        { x := cx + ratSign dx * TILE_SIZE, y := cy, moved := true }
      else { x := cx, y := cy, moved := false }
    else { x := cx, y := cy, moved := false }
  let s2 : CuboidStep :=
    if s1.moved = false ∧ 0 < |dy| then
      if isWallMaze s1.x (s1.y + ratSign dy * TILE_SIZE) = false then
        { x := s1.x, y := s1.y + ratSign dy * TILE_SIZE, moved := true }
      else s1
    else s1
  let s3 : CuboidStep :=
    if s2.moved = false ∧ 0 < |dx| ∧ |dx| ≤ |dy| then
      if isWallMaze (s2.x + ratSign dx * TILE_SIZE) s2.y = false then
        { x := s2.x + ratSign dx * TILE_SIZE, y := s2.y, moved := true }
      else s2
    else s2
  (s3.x, s3.y)

/-! ### Lemmas about decimal rendering and parsing -/

theorem digitVal_digitChar (d : ℕ) (h : d < 10) : digitVal (Nat.digitChar d) = d := by
  interval_cases d <;> decide

theorem isDigit_digitChar (d : ℕ) (h : d < 10) : (Nat.digitChar d).isDigit = true := by
  interval_cases d <;> decide

theorem digitsVal_foldl (l : List Char) (acc : ℕ) :
    l.foldl (fun a c => a * 10 + digitVal c) acc = acc * 10 ^ l.length + digitsVal l := by
  induction l generalizing acc with
  | nil => simp [digitsVal]
  | cons c t ih =>
    simp only [List.foldl_cons, digitsVal, List.length_cons]
    rw [ih (acc * 10 + digitVal c), ih (0 * 10 + digitVal c)]
    ring

theorem digitsVal_append (l1 l2 : List Char) :
    digitsVal (l1 ++ l2) = digitsVal l1 * 10 ^ l2.length + digitsVal l2 := by
  simp only [digitsVal, List.foldl_append]
  rw [digitsVal_foldl l2 (List.foldl (fun a c => a * 10 + digitVal c) 0 l1)]
  rfl

theorem digitsVal_replicate_zero (j : ℕ) : digitsVal (List.replicate j '0') = 0 := by
  induction j with
  | zero => rfl
  | succ n ih =>
    have h0 : digitVal '0' = 0 := by decide
    rw [List.replicate_succ, digitsVal, List.foldl_cons, digitsVal_foldl, h0]
    simpa [digitsVal] using ih

theorem natToCharsAux_digitsVal (fuel n : ℕ) (h : n < 10 ^ fuel) :
    digitsVal (natToCharsAux fuel n) = n := by
  induction fuel generalizing n with
  | zero => simp at h; simp [h, natToCharsAux, digitsVal]
  | succ f ih =>
    by_cases h0 : n = 0
    · simp [h0, natToCharsAux, digitsVal]
    · rw [natToCharsAux, if_neg h0, digitsVal_append]
      have hdiv : n / 10 < 10 ^ f := by
        rw [Nat.div_lt_iff_lt_mul (by norm_num)]
        calc n < 10 ^ (f + 1) := h
        _ = 10 ^ f * 10 := by ring
      rw [ih (n / 10) hdiv]
      simp only [List.length_cons, List.length_nil, pow_one, digitsVal, List.foldl_cons,
        List.foldl_nil]
      rw [digitVal_digitChar (n % 10) (Nat.mod_lt n (by norm_num))]
      omega

theorem natToCharsAux_length (fuel n d : ℕ) (h : n < 10 ^ d) :
    (natToCharsAux fuel n).length ≤ d := by
  induction fuel generalizing n d with
  | zero => simp [natToCharsAux]
  | succ f ih =>
    by_cases h0 : n = 0
    · simp [h0, natToCharsAux]
    · rw [natToCharsAux, if_neg h0]
      have hd : d ≠ 0 := by
        rintro rfl
        simp at h
        exact h0 h
      obtain ⟨d', rfl⟩ : ∃ d', d = d' + 1 := ⟨d - 1, by omega⟩
      have hdiv : n / 10 < 10 ^ d' := by
        rw [Nat.div_lt_iff_lt_mul (by norm_num)]
        calc n < 10 ^ (d' + 1) := h
        _ = 10 ^ d' * 10 := by ring
      have := ih (n / 10) d' hdiv
      simp only [List.length_append, List.length_cons, List.length_nil]
      omega

theorem natToCharsAux_digits (fuel n : ℕ) (c : Char) (hc : c ∈ natToCharsAux fuel n) :
    c.isDigit = true := by
  induction fuel generalizing n with
  | zero => simp [natToCharsAux] at hc
  | succ f ih =>
    by_cases h0 : n = 0
    · simp [h0, natToCharsAux] at hc
    · rw [natToCharsAux, if_neg h0] at hc
      rcases List.mem_append.mp hc with h | h
      · exact ih (n / 10) h
      · simp at h
        rw [h]
        exact isDigit_digitChar (n % 10) (Nat.mod_lt n (by omega))

theorem natToChars_digitsVal (n : ℕ) : digitsVal (natToChars n) = n := by
  by_cases h0 : n = 0
  · simp [h0, natToChars, digitsVal, digitVal]
  · rw [natToChars, if_neg h0]
    exact natToCharsAux_digitsVal (n + 1) n
      (lt_of_lt_of_le (Nat.lt_pow_self (by norm_num) n) (Nat.pow_le_pow_right (by norm_num) n.le_succ))

theorem natToChars_length_le (n d : ℕ) (h : n < 10 ^ d) (hd : 1 ≤ d) :
    (natToChars n).length ≤ d := by
  by_cases h0 : n = 0
  · simpa [h0, natToChars] using hd
  · rw [natToChars, if_neg h0]
    exact natToCharsAux_length (n + 1) n d h

theorem natToChars_digits (n : ℕ) (c : Char) (hc : c ∈ natToChars n) : c.isDigit = true := by
  by_cases h0 : n = 0
  · simp [h0, natToChars] at hc
    rw [hc]; decide
  · rw [natToChars, if_neg h0] at hc
    exact natToCharsAux_digits (n + 1) n c hc

theorem natToChars_ne_nil (n : ℕ) : natToChars n ≠ [] := by
  by_cases h0 : n = 0
  · simp [h0, natToChars]
  · rw [natToChars, if_neg h0, natToCharsAux, if_neg h0]
    simp

theorem takeWhile_all_append (p : Char → Bool) (l1 l2 : List Char) (x : Char)
    (h1 : ∀ a ∈ l1, p a = true) (hx : p x = false) :
    (l1 ++ x :: l2).takeWhile p = l1 := by
  induction l1 with
  | nil => simp [List.takeWhile, hx]
  | cons c t ih =>
    simp only [List.cons_append, List.takeWhile]
    rw [h1 c (List.mem_cons_self c t)]
    simp only [List.cons.injEq, true_and]
    exact ih (fun a ha => h1 a (List.mem_cons_of_mem c ha))

theorem dropWhile_all_append (p : Char → Bool) (l1 l2 : List Char) (x : Char)
    (h1 : ∀ a ∈ l1, p a = true) (hx : p x = false) :
    (l1 ++ x :: l2).dropWhile p = x :: l2 := by
  induction l1 with
  | nil => simp [List.dropWhile, hx]
  | cons c t ih =>
    simp only [List.cons_append, List.dropWhile]
    rw [h1 c (List.mem_cons_self c t)]
    exact ih (fun a ha => h1 a (List.mem_cons_of_mem c ha))

theorem takeWhile_all (p : Char → Bool) (l : List Char) (h : ∀ a ∈ l, p a = true) :
    l.takeWhile p = l := by
  induction l with
  | nil => rfl
  | cons c t ih =>
    simp only [List.takeWhile]
    rw [h c (List.mem_cons_self c t)]
    simp only [List.cons.injEq, true_and]
    exact ih (fun a ha => h a (List.mem_cons_of_mem c ha))

theorem isDigit_ne_minus (c : Char) (h : c.isDigit = true) : c ≠ '-' := by
  rintro rfl; simp at h

theorem isDigit_ne_plus (c : Char) (h : c.isDigit = true) : c ≠ '+' := by
  rintro rfl; simp at h

theorem splitSign_digit (c : Char) (r : List Char) (h : c.isDigit = true) :
    splitSign (c :: r) = (1, c :: r) := by
  rw [splitSign, if_neg (isDigit_ne_minus c h), if_neg (isDigit_ne_plus c h)]

theorem splitSign_minus (r : List Char) : splitSign ('-' :: r) = (-1, r) := by
  simp [splitSign]

theorem isEmpty_natToChars (n : ℕ) : (natToChars n).isEmpty = false := by
  cases h : natToChars n with
  | nil => exact absurd h (natToChars_ne_nil n)
  | cons c t => rfl

theorem parseIntChars_intToChars (i : ℤ) : parseIntChars (intToChars i) = some i := by
  by_cases hneg : i < 0
  · rw [intToChars, if_pos hneg, parseIntChars, splitSign_minus]
    simp only [takeWhile_all Char.isDigit _ (natToChars_digits i.natAbs),
      isEmpty_natToChars, Bool.false_eq_true, if_false, natToChars_digitsVal]
    congr 1
    omega
  · obtain ⟨c, t, hct⟩ : ∃ c t, natToChars i.natAbs = c :: t := by
      cases h : natToChars i.natAbs with
      | nil => exact absurd h (natToChars_ne_nil i.natAbs)
      | cons c t => exact ⟨c, t, rfl⟩
    have hall : ∀ a ∈ c :: t, a.isDigit = true := hct ▸ natToChars_digits i.natAbs
    have hdv : digitsVal (c :: t) = i.natAbs := hct ▸ natToChars_digitsVal i.natAbs
    have hd : c.isDigit = true := hall c (List.mem_cons_self c t)
    rw [intToChars, if_neg hneg, hct, parseIntChars, splitSign_digit c t hd]
    simp only [takeWhile_all Char.isDigit (c :: t) hall, List.isEmpty_cons,
      Bool.false_eq_true, if_false, hdv]
    congr 1
    omega

theorem padLeftZeros_digits (k : ℕ) (l : List Char) (h : ∀ a ∈ l, a.isDigit = true) :
    ∀ a ∈ padLeftZeros k l, a.isDigit = true := by
  intro a ha
  rcases List.mem_append.mp ha with h1 | h1
  · rw [List.eq_of_mem_replicate h1]; decide
  · exact h a h1

theorem padLeftZeros_length (k : ℕ) (l : List Char) (h : l.length ≤ k) :
    (padLeftZeros k l).length = k := by
  simp [padLeftZeros]
  omega

theorem padLeftZeros_val (k : ℕ) (l : List Char) :
    digitsVal (padLeftZeros k l) = digitsVal l := by
  rw [padLeftZeros, digitsVal_append, digitsVal_replicate_zero]
  ring

theorem parseFloatChars_toFixedChars (q : ℚ) (k : ℕ) (hk : 1 ≤ k) :
    parseFloatChars (toFixedChars q k) = some (roundFix q k) := by
  have hipd : ∀ a ∈ natToChars (fixN q k / 10 ^ k), a.isDigit = true := natToChars_digits _
  have hFd : ∀ a ∈ padLeftZeros k (natToChars (fixN q k % 10 ^ k)), a.isDigit = true :=
    padLeftZeros_digits k _ (natToChars_digits _)
  have hdot : ('.' : Char).isDigit = false := by decide
  have hlenF : (padLeftZeros k (natToChars (fixN q k % 10 ^ k))).length = k :=
    padLeftZeros_length k _
      (natToChars_length_le _ k (Nat.mod_lt _ (pow_pos (by norm_num) k)) hk)
  have hvalF : digitsVal (padLeftZeros k (natToChars (fixN q k % 10 ^ k))) = fixN q k % 10 ^ k := by
    rw [padLeftZeros_val, natToChars_digitsVal]
  have htake := takeWhile_all_append Char.isDigit _
    (padLeftZeros k (natToChars (fixN q k % 10 ^ k))) '.' hipd hdot
  have hdrop := dropWhile_all_append Char.isDigit _
    (padLeftZeros k (natToChars (fixN q k % 10 ^ k))) '.' hipd hdot
  have htakeF := takeWhile_all Char.isDigit _ hFd
  have hipne : (natToChars (fixN q k / 10 ^ k)).isEmpty = false := isEmpty_natToChars _
  have hval : ((digitsVal (natToChars (fixN q k / 10 ^ k)) : ℚ) +
      (digitsVal (padLeftZeros k (natToChars (fixN q k % 10 ^ k))) : ℚ) /
        10 ^ (padLeftZeros k (natToChars (fixN q k % 10 ^ k))).length) =
      (fixN q k : ℚ) / 10 ^ k := by
    rw [hlenF, hvalF, natToChars_digitsVal]
    have hmod : fixN q k / 10 ^ k * 10 ^ k + fixN q k % 10 ^ k = fixN q k := by
      rw [mul_comm]
      exact Nat.div_add_mod _ _
    have h10 : ((10 : ℚ) ^ k) ≠ 0 := by positivity
    field_simp
    exact_mod_cast hmod
  by_cases hneg : q < 0
  · rw [toFixedChars, if_pos hneg, List.append_assoc, List.singleton_append, parseFloatChars,
      splitSign_minus]
    simp only [htake, hdrop, List.head?_cons, List.tail_cons, htakeF, hipne, Bool.false_and,
      Bool.false_eq_true, if_false, if_true, hval, roundFix, if_pos hneg]
    rw [Option.some_inj]
    push_cast
    ring
  · rw [toFixedChars, if_neg hneg, List.nil_append, parseFloatChars]
    obtain ⟨c, t, hct⟩ : ∃ c t, natToChars (fixN q k / 10 ^ k) = c :: t := by
      cases h : natToChars (fixN q k / 10 ^ k) with
      | nil => exact absurd h (natToChars_ne_nil _)
      | cons c t => exact ⟨c, t, rfl⟩
    have hd : c.isDigit = true := hipd c (by rw [hct]; exact List.mem_cons_self c t)
    rw [hct, List.cons_append, splitSign_digit c (t ++ '.' :: _) hd, ← List.cons_append, ← hct]
    simp only [htake, hdrop, List.head?_cons, List.tail_cons, htakeF, hipne, Bool.false_and,
      Bool.false_eq_true, if_false, if_true, hval, roundFix, if_neg hneg]
    rw [Option.some_inj]
    push_cast
    ring

/-! ### No serialized field contains the delimiter -/

theorem pipe_not_mem_natToChars (n : ℕ) : '|' ∉ natToChars n := by
  intro h
  have := natToChars_digits n '|' h
  simp at this

theorem pipe_not_mem_toFixedChars (q : ℚ) (k : ℕ) : '|' ∉ toFixedChars q k := by
  intro h
  rw [toFixedChars] at h
  rcases List.mem_append.mp h with h1 | h1
  · rcases List.mem_append.mp h1 with h2 | h2
    · by_cases hneg : q < 0
      · rw [if_pos hneg] at h2
        simp at h2
      · rw [if_neg hneg] at h2
        simp at h2
    · exact pipe_not_mem_natToChars _ h2
  · rcases List.mem_cons.mp h1 with h2 | h2
    · simp at h2
    · have := padLeftZeros_digits k _ (natToChars_digits _) '|' h2
      simp at this

theorem pipe_not_mem_intToChars (i : ℤ) : '|' ∉ intToChars i := by
  intro h
  rw [intToChars] at h
  by_cases hneg : i < 0
  · rw [if_pos hneg] at h
    rcases List.mem_cons.mp h with h2 | h2
    · simp at h2
    · exact pipe_not_mem_natToChars _ h2
  · rw [if_neg hneg] at h
    exact pipe_not_mem_natToChars _ h

theorem pipe_not_mem_boolChar (b : Bool) : '|' ∉ boolChar b := by
  cases b <;> decide

/-! ### The codec round trip (claim C1) -/

/-- The raw enemy produced by re-reading a serialized enemy: coordinates
    rounded to 2 decimals, `angle` reset to `0`. -/
def rawOfEnemy (e : EnemyState) : RawEnemy :=
  { x := some (roundFix e.x 2), y := some (roundFix e.y 2), hp := some e.hp,
    angle := 0, isActive := e.isActive }

/-- The state that decoding an encoded `GameState` actually reproduces:
    positions rounded to 2 decimals, angle to 3, `message` reset to the
    empty string, per-enemy `angle` reset to `0`, all other fields exact. -/
def rawRound (s : GameState) : RawGameState :=
  { px := some (roundFix s.px 2), py := some (roundFix s.py 2), pa := some (roundFix s.pa 3),
    php := some s.php, isMovingForward := s.isMovingForward,
    isTurningLeft := s.isTurningLeft, isTurningRight := s.isTurningRight,
    enemies := s.enemies.map rawOfEnemy, message := "", gameOver := s.gameOver,
    lastInteractionTime := some s.lastInteractionTime }

theorem roundtrip_core (s : GameState) (e1 e2 : EnemyState) (henem : s.enemies = [e1, e2]) :
    deserializeGameState (serializeGameState s) = some (rawRound s) := by
  have hpx := parseFloatChars_toFixedChars s.px 2 (by norm_num)
  have hpy := parseFloatChars_toFixedChars s.py 2 (by norm_num)
  have hpa := parseFloatChars_toFixedChars s.pa 3 (by norm_num)
  have hphp := parseIntChars_intToChars s.php
  have htime := parseIntChars_intToChars s.lastInteractionTime
  have he1x := parseFloatChars_toFixedChars e1.x 2 (by norm_num)
  have he1y := parseFloatChars_toFixedChars e1.y 2 (by norm_num)
  have he1hp := parseIntChars_intToChars e1.hp
  have he2x := parseFloatChars_toFixedChars e2.x 2 (by norm_num)
  have he2y := parseFloatChars_toFixedChars e2.y 2 (by norm_num)
  have he2hp := parseIntChars_intToChars e2.hp
  have hb : ∀ b : Bool, (boolChar b == ['1']) = b := by decide
  have hsplit : (serializeGameState s).splitOn '|' =
      [toFixedChars s.px 2, toFixedChars s.py 2, toFixedChars s.pa 3, intToChars s.php,
       boolChar s.isMovingForward, boolChar s.isTurningLeft, boolChar s.isTurningRight,
       toFixedChars e1.x 2, toFixedChars e1.y 2, intToChars e1.hp, boolChar e1.isActive,
       toFixedChars e2.x 2, toFixedChars e2.y 2, intToChars e2.hp, boolChar e2.isActive,
       boolChar s.gameOver, intToChars s.lastInteractionTime] := by
    rw [serializeGameState, henem]
    show List.splitOn '|' (List.intercalate ['|']
      [toFixedChars s.px 2, toFixedChars s.py 2, toFixedChars s.pa 3, intToChars s.php,
       boolChar s.isMovingForward, boolChar s.isTurningLeft, boolChar s.isTurningRight,
       toFixedChars e1.x 2, toFixedChars e1.y 2, intToChars e1.hp, boolChar e1.isActive,
       toFixedChars e2.x 2, toFixedChars e2.y 2, intToChars e2.hp, boolChar e2.isActive,
       boolChar s.gameOver, intToChars s.lastInteractionTime]) = _
    refine List.splitOn_intercalate _ '|' ?_ (by simp)
    intro l hl
    simp only [List.mem_cons, List.not_mem_nil, or_false] at hl
    rcases hl with rfl|rfl|rfl|rfl|rfl|rfl|rfl|rfl|rfl|rfl|rfl|rfl|rfl|rfl|rfl|rfl|rfl
    all_goals first
      | exact pipe_not_mem_toFixedChars _ _
      | exact pipe_not_mem_intToChars _
      | exact pipe_not_mem_boolChar _
  rw [deserializeGameState, hsplit]
  simp only [pFloat, pInt, pFlag, readEnemies, List.get?_cons_zero, List.get?_cons_succ,
    List.length_cons, List.length_nil, Option.some_bind]
  norm_num
  simp only [hpx, hpy, hpa, hphp, htime, he1x, he1y, he1hp, he2x, he2y, he2hp, hb,
    Option.isNone_some, Bool.false_or, Bool.or_self, Bool.false_eq_true, if_false,
    rawRound, rawOfEnemy, henem, List.map_cons, List.map_nil, List.any_cons, List.any_nil]
  simp

/-! ### Modular arithmetic and map bounds -/

theorem jsMod_nonneg_lt (a b : ℚ) (ha : 0 ≤ a) (hb : 0 < b) :
    0 ≤ jsMod a b ∧ jsMod a b < b := by
  have hba : 0 ≤ a / b := div_nonneg ha hb.le
  have htr : ratTrunc (a / b) = ⌊a / b⌋ := if_neg (not_lt.mpr hba)
  have hcancel : b * (a / b) = a := by field_simp
  have hfr : jsMod a b = b * Int.fract (a / b) := by
    rw [jsMod, htr, Int.fract, mul_sub, hcancel]
  constructor
  · rw [hfr]
    exact mul_nonneg hb.le (Int.fract_nonneg _)
  · rw [hfr]
    calc b * Int.fract (a / b) < b * 1 := mul_lt_mul_of_pos_left (Int.fract_lt_one _) hb
    _ = b := mul_one b

theorem not_isWall_bounds (x y : ℚ) (h : isWall x y = false) :
    0 ≤ x ∧ x < 16 ∧ 0 ≤ y ∧ y < 10 := by
  have hcond : ¬(⌊x / TILE_SIZE⌋ < 0 ∨ MAP_WIDTH ≤ ⌊x / TILE_SIZE⌋ ∨
      ⌊y / TILE_SIZE⌋ < 0 ∨ MAP_HEIGHT ≤ ⌊y / TILE_SIZE⌋) := by
    intro hc
    rw [isWall] at h
    simp only [getMapTile, if_pos hc] at h
    simp at h
  push_neg at hcond
  rw [TILE_SIZE, div_one, div_one] at hcond
  rw [MAP_WIDTH, MAP_HEIGHT] at hcond
  obtain ⟨h1, h2, h3, h4⟩ := hcond
  have hx1 : (0 : ℚ) ≤ x := by
    have h0 : ((0 : ℤ) : ℚ) ≤ (⌊x⌋ : ℚ) := Int.cast_le.mpr h1
    push_cast at h0
    linarith [Int.floor_le x]
  have hx2 : x < 16 := by
    have h16 : (⌊x⌋ : ℚ) ≤ 15 := by exact_mod_cast (by omega : ⌊x⌋ ≤ (15 : ℤ))
    linarith [Int.lt_floor_add_one x]
  have hy1 : (0 : ℚ) ≤ y := by
    have h0 : ((0 : ℤ) : ℚ) ≤ (⌊y⌋ : ℚ) := Int.cast_le.mpr h3
    push_cast at h0
    linarith [Int.floor_le y]
  have hy2 : y < 10 := by
    have h10 : (⌊y⌋ : ℚ) ≤ 9 := by exact_mod_cast (by omega : ⌊y⌋ ≤ (9 : ℤ))
    linarith [Int.lt_floor_add_one y]
  exact ⟨hx1, hx2, hy1, hy2⟩

/-- Every in-bounds lookup of the layout yields one of the four raw map
    characters, or `none` on the short row. -/
theorem mapChar_cases : ∀ j : Fin 10, ∀ i : Fin 16,
    ((INITIAL_MAP_LAYOUT.get? (j : ℕ)).bind fun row => row.get? (i : ℕ)) = some '#' ∨
    ((INITIAL_MAP_LAYOUT.get? (j : ℕ)).bind fun row => row.get? (i : ℕ)) = some '.' ∨
    ((INITIAL_MAP_LAYOUT.get? (j : ℕ)).bind fun row => row.get? (i : ℕ)) = some 'P' ∨
    ((INITIAL_MAP_LAYOUT.get? (j : ℕ)).bind fun row => row.get? (i : ℕ)) = some 'E' ∨
    ((INITIAL_MAP_LAYOUT.get? (j : ℕ)).bind fun row => row.get? (i : ℕ)) = none := by
  decide

/-! ### Structural facts about the turn phases -/

theorem applyToggles_fields (s : GameState) (a : String) :
    (applyToggles s a).px = s.px ∧ (applyToggles s a).py = s.py ∧
    (applyToggles s a).pa = s.pa ∧ (applyToggles s a).php = s.php ∧
    (applyToggles s a).enemies = s.enemies ∧ (applyToggles s a).gameOver = s.gameOver ∧
    (applyToggles s a).message = s.message ∧
    (applyToggles s a).lastInteractionTime = s.lastInteractionTime := by
  rw [applyToggles]
  split_ifs <;> simp

theorem applyTurning_fields (s : GameState) :
    (applyTurning s).px = s.px ∧ (applyTurning s).py = s.py ∧
    (applyTurning s).php = s.php ∧ (applyTurning s).enemies = s.enemies ∧
    (applyTurning s).gameOver = s.gameOver ∧ (applyTurning s).message = s.message ∧
    (applyTurning s).isMovingForward = s.isMovingForward ∧
    (applyTurning s).isTurningLeft = s.isTurningLeft ∧
    (applyTurning s).isTurningRight = s.isTurningRight ∧
    (applyTurning s).lastInteractionTime = s.lastInteractionTime := by
  rw [applyTurning]
  simp

theorem applyMovement_fields (T : Trig) (s : GameState) :
    (applyMovement T s).pa = s.pa ∧ (applyMovement T s).php = s.php ∧
    (applyMovement T s).enemies = s.enemies ∧ (applyMovement T s).gameOver = s.gameOver ∧
    (applyMovement T s).message = s.message ∧
    (applyMovement T s).isMovingForward = s.isMovingForward ∧
    (applyMovement T s).isTurningLeft = s.isTurningLeft ∧
    (applyMovement T s).isTurningRight = s.isTurningRight ∧
    (applyMovement T s).lastInteractionTime = s.lastInteractionTime := by
  rw [applyMovement]
  split_ifs <;> simp

/-- The movement phase never puts the player inside a wall. -/
theorem applyMovement_notWall (T : Trig) (s : GameState)
    (h : isWall s.px s.py = false) :
    isWall (applyMovement T s).px (applyMovement T s).py = false := by
  rw [applyMovement]
  by_cases hm : s.isMovingForward
  · simp only [if_pos hm]
    by_cases hx : isWall (s.px + T.cos s.pa * PLAYER_MOVE_SPEED) s.py = false
    · simp only [if_pos hx]
      by_cases hy : isWall (s.px + T.cos s.pa * PLAYER_MOVE_SPEED)
          (s.py + T.sin s.pa * PLAYER_MOVE_SPEED) = false
      · simpa [hy] using hy
      · simpa [hy] using hx
    · simp only [if_neg hx]
      by_cases hy : isWall s.px (s.py + T.sin s.pa * PLAYER_MOVE_SPEED) = false
      · simpa [hy] using hy
      · simpa [hy] using h
  · simpa [hm] using h

theorem shootStep_pos (T : Trig) (px py pa : ℚ) (acc : ShootAcc) (e : EnemyState) :
    (shootStep T px py pa acc e).2.x = e.x ∧ (shootStep T px py pa acc e).2.y = e.y := by
  simp only [shootStep]
  split_ifs <;> simp

theorem shootEnemies_pos (T : Trig) (px py pa : ℚ) (acc : ShootAcc) (es : List EnemyState) :
    ∀ e' ∈ (shootEnemies T px py pa acc es).2, ∃ e ∈ es, e'.x = e.x ∧ e'.y = e.y := by
  induction es generalizing acc with
  | nil => intro e' h; simp [shootEnemies] at h
  | cons e t ih =>
    intro e' h
    rw [shootEnemies] at h
    simp only [List.mem_cons] at h
    rcases h with rfl | h
    · exact ⟨e, List.mem_cons_self e t, (shootStep_pos T px py pa acc e).1,
        (shootStep_pos T px py pa acc e).2⟩
    · obtain ⟨e0, he0, hx, hy⟩ := ih _ e' h
      exact ⟨e0, List.mem_cons_of_mem e he0, hx, hy⟩

theorem applyShoot_fields (T : Trig) (s : GameState) (a : String) :
    (applyShoot T s a).px = s.px ∧ (applyShoot T s a).py = s.py ∧
    (applyShoot T s a).pa = s.pa ∧ (applyShoot T s a).php = s.php ∧
    (applyShoot T s a).gameOver = s.gameOver ∧
    (applyShoot T s a).isMovingForward = s.isMovingForward ∧
    (applyShoot T s a).isTurningLeft = s.isTurningLeft ∧
    (applyShoot T s a).isTurningRight = s.isTurningRight ∧
    (applyShoot T s a).lastInteractionTime = s.lastInteractionTime := by
  rw [applyShoot]
  split_ifs <;> simp

/-- Positions coming out of the shoot phase are positions already present. -/
theorem applyShoot_enemyPos (T : Trig) (s : GameState) (a : String) :
    ∀ e' ∈ (applyShoot T s a).enemies, ∃ e ∈ s.enemies, e'.x = e.x ∧ e'.y = e.y := by
  rw [applyShoot]
  split_ifs with h
  · intro e' h'
    simp only at h'
    exact shootEnemies_pos T s.px s.py s.pa _ s.enemies e' h'
  · intro e' h'
    exact ⟨e', h', rfl, rfl⟩

theorem enemyAI1_notWall (T : Trig) (px py : ℚ) (acc : AIAcc) (e : EnemyState)
    (h : isWall e.x e.y = false) :
    isWall (enemyAI1 T px py acc e).2.x (enemyAI1 T px py acc e).2.y = false := by
  simp only [enemyAI1]
  split_ifs <;> simp_all

theorem enemiesAI_notWall (T : Trig) (px py : ℚ) (es : List EnemyState) :
    ∀ acc : AIAcc, (∀ e ∈ es, isWall e.x e.y = false) →
    ∀ e' ∈ (enemiesAI T px py acc es).2, isWall e'.x e'.y = false := by
  induction es with
  | nil => intro acc hall e' h; simp [enemiesAI] at h
  | cons e t ih =>
    intro acc hall e' h
    rw [enemiesAI] at h
    simp only [List.mem_cons] at h
    rcases h with rfl | h
    · exact enemyAI1_notWall T px py acc e (hall e (List.mem_cons_self e t))
    · exact ih _ (fun a ha => hall a (List.mem_cons_of_mem e ha)) e' h

theorem applyEnemyAI_fields (T : Trig) (s : GameState) :
    (applyEnemyAI T s).px = s.px ∧ (applyEnemyAI T s).py = s.py ∧
    (applyEnemyAI T s).pa = s.pa ∧
    (applyEnemyAI T s).isMovingForward = s.isMovingForward ∧
    (applyEnemyAI T s).isTurningLeft = s.isTurningLeft ∧
    (applyEnemyAI T s).isTurningRight = s.isTurningRight ∧
    (applyEnemyAI T s).lastInteractionTime = s.lastInteractionTime := by
  rw [applyEnemyAI]
  simp

theorem applyWinCheck_fields (s : GameState) :
    (applyWinCheck s).px = s.px ∧ (applyWinCheck s).py = s.py ∧
    (applyWinCheck s).pa = s.pa ∧ (applyWinCheck s).php = s.php ∧
    (applyWinCheck s).enemies = s.enemies ∧
    (applyWinCheck s).isMovingForward = s.isMovingForward ∧
    (applyWinCheck s).isTurningLeft = s.isTurningLeft ∧
    (applyWinCheck s).isTurningRight = s.isTurningRight ∧
    (applyWinCheck s).lastInteractionTime = s.lastInteractionTime := by
  rw [applyWinCheck]
  split_ifs <;> simp

/-- Wall safety through the AI and win-check phases. -/
theorem afterAI_notWall (T : Trig) (s4 : GameState)
    (hp : isWall s4.px s4.py = false)
    (he : ∀ e ∈ s4.enemies, isWall e.x e.y = false) :
    isWall (applyWinCheck (applyEnemyAI T s4)).px (applyWinCheck (applyEnemyAI T s4)).py
      = false ∧
    ∀ e ∈ (applyWinCheck (applyEnemyAI T s4)).enemies, isWall e.x e.y = false := by
  obtain ⟨ai_px, ai_py, _, _, _, _, _⟩ := applyEnemyAI_fields T s4
  obtain ⟨w_px, w_py, _, _, w_en, _, _, _, _⟩ := applyWinCheck_fields (applyEnemyAI T s4)
  have hai_en : (applyEnemyAI T s4).enemies = (enemiesAI T s4.px s4.py
      { php := s4.php, message := s4.message, gameOver := s4.gameOver } s4.enemies).2 := rfl
  constructor
  · rw [w_px, w_py, ai_px, ai_py]
    exact hp
  · intro e hmem
    rw [w_en, hai_en] at hmem
    exact enemiesAI_notWall T s4.px s4.py s4.enemies _ he e hmem

/-- Wall safety through the shoot, AI and win-check phases. -/
theorem afterShoot_notWall (T : Trig) (s3 : GameState) (action : String)
    (hp : isWall s3.px s3.py = false)
    (he : ∀ e ∈ s3.enemies, isWall e.x e.y = false) :
    isWall (applyWinCheck (applyEnemyAI T (applyShoot T s3 action))).px
      (applyWinCheck (applyEnemyAI T (applyShoot T s3 action))).py = false ∧
    ∀ e ∈ (applyWinCheck (applyEnemyAI T (applyShoot T s3 action))).enemies,
      isWall e.x e.y = false := by
  obtain ⟨sh_px, sh_py, _, _, _, _, _, _, _⟩ := applyShoot_fields T s3 action
  apply afterAI_notWall
  · rw [sh_px, sh_py]
    exact hp
  · intro a ha
    obtain ⟨e0, he0, hax, hay⟩ := applyShoot_enemyPos T s3 action a ha
    rw [hax, hay]
    exact he e0 he0

/-- Wall safety through movement, shoot, AI and win-check. -/
theorem afterMovement_notWall (T : Trig) (s2 : GameState) (action : String)
    (hp : isWall s2.px s2.py = false)
    (he : ∀ e ∈ s2.enemies, isWall e.x e.y = false) :
    isWall (applyWinCheck (applyEnemyAI T (applyShoot T (applyMovement T s2) action))).px
      (applyWinCheck (applyEnemyAI T (applyShoot T (applyMovement T s2) action))).py = false ∧
    ∀ e ∈ (applyWinCheck (applyEnemyAI T (applyShoot T (applyMovement T s2) action))).enemies,
      isWall e.x e.y = false := by
  obtain ⟨_, _, m_en, _, _, _, _, _, _⟩ := applyMovement_fields T s2
  apply afterShoot_notWall
  · exact applyMovement_notWall T s2 hp
  · rw [m_en]
    exact he

/-- Wall safety of one whole turn. -/
theorem update_notWall (T : Trig) (now : ℤ) (s : GameState) (action : String)
    (hp : isWall s.px s.py = false)
    (he : ∀ e ∈ s.enemies, isWall e.x e.y = false) :
    isWall (updateGameState T now s action).px (updateGameState T now s action).py = false ∧
    ∀ e ∈ (updateGameState T now s action).enemies, isWall e.x e.y = false := by
  rw [updateGameState]
  split_ifs with h1 h2
  · exact ⟨by simpa using hp, by simpa using he⟩
  · exact ⟨by simpa using hp, by simpa using he⟩
  · obtain ⟨t_px, t_py, _, _, t_en, _, _, _⟩ :=
      applyToggles_fields { s with message := "", lastInteractionTime := now } action
    obtain ⟨u_px, u_py, _, u_en, _, _, _, _, _, _⟩ :=
      applyTurning_fields (applyToggles { s with message := "", lastInteractionTime := now } action)
    apply afterMovement_notWall
    · rw [u_px, u_py, t_px, t_py]
      simpa using hp
    · rw [u_en, t_en]
      simpa using he

/-- Terminal states short-circuit the turn: only the message and the
    timestamp are touched. -/
theorem update_gameOver (T : Trig) (now : ℤ) (s : GameState) (action : String)
    (h : s.gameOver = true) :
    updateGameState T now s action =
      { s with message := "Game Over! Start a new game with /doom.",
               lastInteractionTime := now } := by
  rw [updateGameState]
  simp [h]

/-! ### Unrecognized actions -/

theorem applyToggles_unrec (s : GameState) (a : String)
    (h1 : a ≠ "toggle_forward") (h2 : a ≠ "toggle_turn_left")
    (h3 : a ≠ "toggle_turn_right") : applyToggles s a = s := by
  rw [applyToggles, if_neg h1, if_neg h2, if_neg h3]

theorem applyShoot_unrec (T : Trig) (s : GameState) (a : String) (h : a ≠ "shoot") :
    applyShoot T s a = s := by
  rw [applyShoot, if_neg h]

/-- Any two unrecognized actions produce identical turns. -/
theorem update_unrec_eq (T : Trig) (now : ℤ) (s : GameState) (a b : String)
    (ha1 : a ≠ "toggle_forward") (ha2 : a ≠ "toggle_turn_left")
    (ha3 : a ≠ "toggle_turn_right") (ha4 : a ≠ "shoot")
    (hb1 : b ≠ "toggle_forward") (hb2 : b ≠ "toggle_turn_left")
    (hb3 : b ≠ "toggle_turn_right") (hb4 : b ≠ "shoot") :
    updateGameState T now s a = updateGameState T now s b := by
  rw [updateGameState, updateGameState,
    applyToggles_unrec _ a ha1 ha2 ha3, applyToggles_unrec _ b hb1 hb2 hb3,
    applyShoot_unrec T _ a ha4, applyShoot_unrec T _ b hb4]

/-- The movement-intent flags survive a turn with an unrecognized action. -/
theorem update_unrec_flags (T : Trig) (now : ℤ) (s : GameState) (a : String)
    (ha1 : a ≠ "toggle_forward") (ha2 : a ≠ "toggle_turn_left")
    (ha3 : a ≠ "toggle_turn_right") (ha4 : a ≠ "shoot") :
    (updateGameState T now s a).isMovingForward = s.isMovingForward ∧
    (updateGameState T now s a).isTurningLeft = s.isTurningLeft ∧
    (updateGameState T now s a).isTurningRight = s.isTurningRight := by
  rw [updateGameState]
  split_ifs with h1 h2
  · simp
  · simp
  · rw [applyToggles_unrec _ a ha1 ha2 ha3, applyShoot_unrec T _ a ha4]
    obtain ⟨_, _, _, _, _, _, u_mf, u_tl, u_tr, _⟩ :=
      applyTurning_fields { s with message := "", lastInteractionTime := now }
    obtain ⟨_, _, _, _, _, m_mf, m_tl, m_tr, _⟩ :=
      applyMovement_fields T (applyTurning { s with message := "", lastInteractionTime := now })
    obtain ⟨_, _, _, ai_mf, ai_tl, ai_tr, _⟩ :=
      applyEnemyAI_fields T (applyMovement T
        (applyTurning { s with message := "", lastInteractionTime := now }))
    obtain ⟨_, _, _, _, _, w_mf, w_tl, w_tr, _⟩ :=
      applyWinCheck_fields (applyEnemyAI T (applyMovement T
        (applyTurning { s with message := "", lastInteractionTime := now })))
    rw [w_mf, w_tl, w_tr, ai_mf, ai_tl, ai_tr, m_mf, m_tl, m_tr, u_mf, u_tl, u_tr]
    simp

/-! ### Decode-failure characterization (claim C2) -/

/-- `deserializeGameState` returns the failure signal exactly when the
    parsed `px`, `php`, or one of the parsed enemy `x` fields is `NaN`;
    no other field is validated. -/
theorem deserialize_none_iff (cs : List Char) :
    deserializeGameState cs = none ↔
      ((pFloat (cs.splitOn '|') 0).isNone = true ∨
       (pInt (cs.splitOn '|') 3).isNone = true ∨
       ((readEnemies (cs.splitOn '|') 2 7).1.any fun e => e.x.isNone) = true) := by
  rw [deserializeGameState]
  split_ifs with h
  · simp only [true_iff]
    simpa [Bool.or_eq_true, or_assoc] using h
  · constructor
    · intro hcon
      exact hcon.elim
    · intro hor
      exact absurd (by simpa [Bool.or_eq_true, or_assoc] using hor) h

/-! ### The center ray column (claim C8) -/

theorem rayAngle_center (pa : ℚ) : rayAngle pa 10 = pa - FOV / 42 := by
  rw [rayAngle, VIEW_WIDTH_CHARS]
  push_cast
  ring

theorem castRay_center (T : Trig) (px py pa : ℚ) :
    castRay T px py pa 10 =
      (rayMarch px py (T.cos (pa - FOV / 42)) (T.sin (pa - FOV / 42)) 201 0).map
        (fun d => d * T.cos (-(FOV / 42))) := by
  rw [castRay, rayAngle_center]
  have harg : pa - FOV / 42 - pa = -(FOV / 42) := by ring
  rw [harg]

/-! ### Dominant-axis stepping of the maze-variant chaser (claim C6) -/

theorem redCuboidAI_cases (px py cx cy : ℚ) :
    (|py - cy| < |px - cx| →
      isWallMaze (cx + ratSign (px - cx) * TILE_SIZE) cy = false →
      redCuboidAI px py cx cy = (cx + ratSign (px - cx) * TILE_SIZE, cy)) ∧
    (|py - cy| < |px - cx| →
      isWallMaze (cx + ratSign (px - cx) * TILE_SIZE) cy = true →
      0 < |py - cy| →
      isWallMaze cx (cy + ratSign (py - cy) * TILE_SIZE) = false →
      redCuboidAI px py cx cy = (cx, cy + ratSign (py - cy) * TILE_SIZE)) ∧
    (|px - cx| ≤ |py - cy| →
      0 < |py - cy| →
      isWallMaze cx (cy + ratSign (py - cy) * TILE_SIZE) = false →
      redCuboidAI px py cx cy = (cx, cy + ratSign (py - cy) * TILE_SIZE)) ∧
    (|px - cx| ≤ |py - cy| →
      0 < |px - cx| →
      isWallMaze cx (cy + ratSign (py - cy) * TILE_SIZE) = true →
      isWallMaze (cx + ratSign (px - cx) * TILE_SIZE) cy = false →
      redCuboidAI px py cx cy = (cx + ratSign (px - cx) * TILE_SIZE, cy)) := by
  refine ⟨?_, ?_, ?_, ?_⟩
  · intro hdom hclear
    simp only [redCuboidAI]
    split_ifs <;> simp_all
  · intro hdom hblock hdy hclear
    simp only [redCuboidAI]
    split_ifs <;> simp_all
  · intro hdom hdy hclear
    simp only [redCuboidAI]
    split_ifs <;> simp_all <;> linarith
  · intro hdom hdx hblock hclear
    simp only [redCuboidAI]
    split_ifs <;> simp_all <;> linarith

/-! ### The reachable-state invariant (claim C9) -/

theorem piQ_pos : (0 : ℚ) < piQ := by norm_num [piQ]

theorem two_piQ_lt_nine : 2 * piQ < 9 := by norm_num [piQ]

/-- Per-enemy invariant: positions in the map box or at the `-1` sentinel,
    health in `[0, 3]`, and positive health while active. -/
structure EnemyInv (e : EnemyState) : Prop where
  hx : (0 ≤ e.x ∧ e.x < 16) ∨ e.x = -1
  hy : (0 ≤ e.y ∧ e.y < 10) ∨ e.y = -1
  hp0 : 0 ≤ e.hp
  hp3 : e.hp ≤ 3
  act : e.isActive = true → 1 ≤ e.hp

/-- State invariant maintained by every turn (timestamps are 13-digit
    wall-clock values). -/
structure StateInv (s : GameState) : Prop where
  px0 : 0 ≤ s.px
  px16 : s.px < 16
  py0 : 0 ≤ s.py
  py10 : s.py < 10
  pa0 : 0 ≤ s.pa
  pa2pi : s.pa < 2 * piQ
  php0 : 0 ≤ s.php
  php5 : s.php ≤ 5
  elen : s.enemies.length = 2
  einv : ∀ e ∈ s.enemies, EnemyInv e
  t0 : 0 ≤ s.lastInteractionTime
  t13 : s.lastInteractionTime < 10 ^ 13

/-- Accumulator invariant along the enemy-AI fold. -/
structure AIInv (acc : AIAcc) : Prop where
  h0 : 0 ≤ acc.php
  h5 : acc.php ≤ 5
  hlive : acc.gameOver = false → 1 ≤ acc.php

/-! ### Length bounds for the serialized fields -/

theorem toFixedChars_length_eq (q : ℚ) (k : ℕ) (hk : 1 ≤ k) (h0 : 0 ≤ q) :
    (toFixedChars q k).length = (natToChars (fixN q k / 10 ^ k)).length + 1 + k := by
  rw [toFixedChars, if_neg (not_lt.mpr h0)]
  simp only [List.nil_append, List.length_append, List.length_cons]
  rw [padLeftZeros_length k _
    (natToChars_length_le _ k (Nat.mod_lt _ (pow_pos (by norm_num) k)) hk)]
  omega

theorem fixN_le (q : ℚ) (k : ℕ) (B : ℕ) (h0 : 0 ≤ q) (h1 : q * 10 ^ k + 1/2 < (B : ℚ) + 1) :
    fixN q k ≤ B := by
  have habs : |q| = q := abs_of_nonneg h0
  have hfl : ⌊|q| * 10 ^ k + 1/2⌋ ≤ (B : ℤ) := by
    rw [habs, Int.floor_le_iff]
    push_cast
    linarith
  rw [fixN]
  omega

theorem toFixedChars_len_pos2 (q : ℚ) (h0 : 0 ≤ q) (h1 : q < 16) :
    (toFixedChars q 2).length ≤ 5 := by
  rw [toFixedChars_length_eq q 2 (by norm_num) h0]
  have hfix : fixN q 2 ≤ 1600 := fixN_le q 2 1600 h0 (by push_cast; nlinarith)
  have hdiv : fixN q 2 / 10 ^ 2 < 10 ^ 2 := by omega
  have := natToChars_length_le (fixN q 2 / 10 ^ 2) 2 hdiv (by norm_num)
  omega

theorem toFixedChars_len_pa (q : ℚ) (h0 : 0 ≤ q) (h1 : q < 2 * piQ) :
    (toFixedChars q 3).length ≤ 5 := by
  rw [toFixedChars_length_eq q 3 (by norm_num) h0]
  have h9 : q < 9 := lt_trans h1 two_piQ_lt_nine
  have hfix : fixN q 3 ≤ 9000 := fixN_le q 3 9000 h0 (by push_cast; nlinarith)
  have hdiv : fixN q 3 / 10 ^ 3 < 10 ^ 1 := by omega
  have := natToChars_length_le (fixN q 3 / 10 ^ 3) 1 hdiv (by norm_num)
  omega

theorem toFixedChars_len_neg1 : (toFixedChars (-1) 2).length = 5 := by decide

theorem intToChars_len_le (i : ℤ) (d : ℕ) (h0 : 0 ≤ i) (h1 : i < 10 ^ d) (hd : 1 ≤ d) :
    (intToChars i).length ≤ d := by
  rw [intToChars, if_neg (not_lt.mpr h0)]
  apply natToChars_length_le _ _ _ hd
  have hcast : ((i.natAbs : ℤ)) = i := Int.natAbs_of_nonneg h0
  have : (i.natAbs : ℤ) < ((10 ^ d : ℕ) : ℤ) := by
    rw [hcast]
    push_cast
    exact h1
  exact_mod_cast this

theorem boolChar_length (b : Bool) : (boolChar b).length = 1 := by cases b <;> rfl

theorem intercalate_cons_cons (sep a b : List Char) (l : List (List Char)) :
    List.intercalate sep (a :: b :: l) = a ++ sep ++ List.intercalate sep (b :: l) := by
  simp [List.intercalate, List.intersperse_cons_cons, List.flatten]

/-! ### Per-phase preservation of the invariant -/

theorem applyTurning_pa_bounds (s : GameState) (h : 0 ≤ s.pa) :
    0 ≤ (applyTurning s).pa ∧ (applyTurning s).pa < 2 * piQ := by
  have hpi := piQ_pos
  rw [applyTurning]
  dsimp only
  apply jsMod_nonneg_lt
  · rw [PLAYER_ROTATION_SPEED]
    split_ifs <;> linarith
  · linarith

theorem applyMovement_pos_bounds (T : Trig) (s : GameState)
    (hx0 : 0 ≤ s.px) (hx16 : s.px < 16) (hy0 : 0 ≤ s.py) (hy10 : s.py < 10) :
    (0 ≤ (applyMovement T s).px ∧ (applyMovement T s).px < 16) ∧
    (0 ≤ (applyMovement T s).py ∧ (applyMovement T s).py < 10) := by
  rw [applyMovement]
  by_cases hm : s.isMovingForward
  · simp only [if_pos hm]
    by_cases hxw : isWall (s.px + T.cos s.pa * PLAYER_MOVE_SPEED) s.py = false
    · simp only [if_pos hxw]
      obtain ⟨hx1, hx2, _, _⟩ := not_isWall_bounds _ _ hxw
      by_cases hyw : isWall (s.px + T.cos s.pa * PLAYER_MOVE_SPEED)
          (s.py + T.sin s.pa * PLAYER_MOVE_SPEED) = false
      · simp only [if_pos hyw]
        obtain ⟨_, _, hy1, hy2⟩ := not_isWall_bounds _ _ hyw
        exact ⟨⟨hx1, hx2⟩, hy1, hy2⟩
      · simp only [if_neg hyw]
        exact ⟨⟨hx1, hx2⟩, hy0, hy10⟩
    · simp only [if_neg hxw]
      by_cases hyw : isWall s.px (s.py + T.sin s.pa * PLAYER_MOVE_SPEED) = false
      · simp only [if_pos hyw]
        obtain ⟨_, _, hy1, hy2⟩ := not_isWall_bounds _ _ hyw
        exact ⟨⟨hx0, hx16⟩, hy1, hy2⟩
      · simp only [if_neg hyw]
        exact ⟨⟨hx0, hx16⟩, hy0, hy10⟩
  · simp only [if_neg hm]
    exact ⟨⟨hx0, hx16⟩, hy0, hy10⟩

theorem shootStep_enemyInv (T : Trig) (px py pa : ℚ) (acc : ShootAcc) (e : EnemyState)
    (h : EnemyInv e) : EnemyInv (shootStep T px py pa acc e).2 := by
  obtain ⟨hx, hy, hp0, hp3, hact⟩ := h
  simp only [shootStep, SHOOT_DAMAGE]
  split_ifs with h1 h2 h3 h4
  · exact ⟨hx, hy, hp0, hp3, hact⟩
  · -- the shot kills: hp - 1 ≤ 0 and the enemy is deactivated
    have hactive : e.isActive = true := by simpa using h1
    have h1hp := hact hactive
    refine ⟨?_, ?_, ?_, ?_, ?_⟩ <;> dsimp only
    · exact hx
    · exact hy
    · omega
    · omega
    · intro hfalse
      exact Bool.noConfusion hfalse
  · -- the shot wounds: hp - 1 ≥ 1
    have hactive : e.isActive = true := by simpa using h1
    have h1hp := hact hactive
    refine ⟨?_, ?_, ?_, ?_, ?_⟩ <;> dsimp only
    · exact hx
    · exact hy
    · omega
    · omega
    · intro _
      omega
  · exact ⟨hx, hy, hp0, hp3, hact⟩
  · exact ⟨hx, hy, hp0, hp3, hact⟩

theorem shootEnemies_enemyInv (T : Trig) (px py pa : ℚ) (es : List EnemyState) :
    ∀ acc : ShootAcc, (∀ e ∈ es, EnemyInv e) →
    ∀ e' ∈ (shootEnemies T px py pa acc es).2, EnemyInv e' := by
  induction es with
  | nil => intro acc _ e' h; simp [shootEnemies] at h
  | cons e t ih =>
    intro acc hall e' h
    rw [shootEnemies] at h
    simp only [List.mem_cons] at h
    rcases h with rfl | h
    · exact shootStep_enemyInv T px py pa acc e (hall e (List.mem_cons_self e t))
    · exact ih _ (fun a ha => hall a (List.mem_cons_of_mem e ha)) e' h

theorem shootEnemies_length (T : Trig) (px py pa : ℚ) (es : List EnemyState) :
    ∀ acc : ShootAcc, (shootEnemies T px py pa acc es).2.length = es.length := by
  induction es with
  | nil => intro acc; rfl
  | cons e t ih =>
    intro acc
    rw [shootEnemies]
    simp only [List.length_cons]
    rw [ih]

theorem enemyAI1_enemyInv (T : Trig) (px py : ℚ) (acc : AIAcc) (e : EnemyState)
    (h : EnemyInv e) : EnemyInv (enemyAI1 T px py acc e).2 := by
  obtain ⟨hx, hy, hp0, hp3, hact⟩ := h
  by_cases h1 : e.isActive = false ∨ acc.gameOver = true
  · simp only [enemyAI1, if_pos h1]
    exact ⟨hx, hy, hp0, hp3, hact⟩
  · by_cases h2 : (px - e.x) ^ 2 + (py - e.y) ^ 2 < (1/2 * TILE_SIZE) ^ 2
    · simp only [enemyAI1, if_neg h1, if_pos h2]
      by_cases h3 : acc.php - 1 ≤ 0
      · simp only [if_pos h3]
        exact ⟨hx, hy, hp0, hp3, hact⟩
      · simp only [if_neg h3]
        exact ⟨hx, hy, hp0, hp3, hact⟩
    · by_cases h4 : (px - e.x) ^ 2 + (py - e.y) ^ 2 < (5 * TILE_SIZE) ^ 2
      · simp only [enemyAI1, if_neg h1, if_neg h2, if_pos h4]
        by_cases hxw : isWall
            (e.x + T.cos (T.atan2 (py - e.y) (px - e.x)) * ENEMY_MOVE_SPEED) e.y = false
        · simp only [if_pos hxw]
          obtain ⟨ha1, ha2, _, _⟩ := not_isWall_bounds _ _ hxw
          by_cases hyw : isWall
              (e.x + T.cos (T.atan2 (py - e.y) (px - e.x)) * ENEMY_MOVE_SPEED)
              (e.y + T.sin (T.atan2 (py - e.y) (px - e.x)) * ENEMY_MOVE_SPEED) = false
          · simp only [if_pos hyw]
            obtain ⟨_, _, hb1, hb2⟩ := not_isWall_bounds _ _ hyw
            exact ⟨Or.inl ⟨ha1, ha2⟩, Or.inl ⟨hb1, hb2⟩, hp0, hp3, hact⟩
          · simp only [if_neg hyw]
            exact ⟨Or.inl ⟨ha1, ha2⟩, hy, hp0, hp3, hact⟩
        · simp only [if_neg hxw]
          by_cases hyw : isWall e.x
              (e.y + T.sin (T.atan2 (py - e.y) (px - e.x)) * ENEMY_MOVE_SPEED) = false
          · simp only [if_pos hyw]
            obtain ⟨_, _, hb1, hb2⟩ := not_isWall_bounds _ _ hyw
            exact ⟨hx, Or.inl ⟨hb1, hb2⟩, hp0, hp3, hact⟩
          · simp only [if_neg hyw]
            exact ⟨hx, hy, hp0, hp3, hact⟩
      · simp only [enemyAI1, if_neg h1, if_neg h2, if_neg h4]
        exact ⟨hx, hy, hp0, hp3, hact⟩

theorem enemyAI1_accInv (T : Trig) (px py : ℚ) (acc : AIAcc) (e : EnemyState)
    (h : AIInv acc) : AIInv (enemyAI1 T px py acc e).1 := by
  obtain ⟨h0, h5, hlive⟩ := h
  simp only [enemyAI1]
  split_ifs with h1 h2 h3 h4
  · exact ⟨h0, h5, hlive⟩
  · -- the contact attack kills the player: gameOver is set
    have hgo : acc.gameOver = false := by
      cases hgo2 : acc.gameOver with
      | false => rfl
      | true => exact absurd (Or.inr hgo2) h1
    have h1php := hlive hgo
    refine ⟨?_, ?_, ?_⟩ <;> dsimp only
    · omega
    · omega
    · intro hfalse
      exact Bool.noConfusion hfalse
  · -- the contact attack wounds the player: php - 1 ≥ 1
    have hgo : acc.gameOver = false := by
      cases hgo2 : acc.gameOver with
      | false => rfl
      | true => exact absurd (Or.inr hgo2) h1
    have h1php := hlive hgo
    refine ⟨?_, ?_, ?_⟩ <;> dsimp only
    · omega
    · omega
    · intro _
      omega
  · exact ⟨h0, h5, hlive⟩
  · exact ⟨h0, h5, hlive⟩
  · exact ⟨h0, h5, hlive⟩
  · exact ⟨h0, h5, hlive⟩
  · exact ⟨h0, h5, hlive⟩

theorem enemiesAI_accInv (T : Trig) (px py : ℚ) (es : List EnemyState) :
    ∀ acc : AIAcc, AIInv acc → AIInv (enemiesAI T px py acc es).1 := by
  induction es with
  | nil => intro acc h; exact h
  | cons e t ih =>
    intro acc h
    rw [enemiesAI]
    exact ih _ (enemyAI1_accInv T px py acc e h)

theorem enemiesAI_enemyInv (T : Trig) (px py : ℚ) (es : List EnemyState) :
    ∀ acc : AIAcc, (∀ e ∈ es, EnemyInv e) →
    ∀ e' ∈ (enemiesAI T px py acc es).2, EnemyInv e' := by
  induction es with
  | nil => intro acc _ e' h; simp [enemiesAI] at h
  | cons e t ih =>
    intro acc hall e' h
    rw [enemiesAI] at h
    simp only [List.mem_cons] at h
    rcases h with rfl | h
    · exact enemyAI1_enemyInv T px py acc e (hall e (List.mem_cons_self e t))
    · exact ih _ (fun a ha => hall a (List.mem_cons_of_mem e ha)) e' h

theorem enemiesAI_length (T : Trig) (px py : ℚ) (es : List EnemyState) :
    ∀ acc : AIAcc, (enemiesAI T px py acc es).2.length = es.length := by
  induction es with
  | nil => intro acc; rfl
  | cons e t ih =>
    intro acc
    rw [enemiesAI]
    simp only [List.length_cons]
    rw [ih]

theorem applyShoot_enemyInv (T : Trig) (s : GameState) (a : String)
    (h : ∀ e ∈ s.enemies, EnemyInv e) :
    ∀ e ∈ (applyShoot T s a).enemies, EnemyInv e := by
  rw [applyShoot]
  split_ifs
  · intro e he
    exact shootEnemies_enemyInv T s.px s.py s.pa s.enemies _ h e he
  · exact h

theorem applyShoot_elen (T : Trig) (s : GameState) (a : String) :
    (applyShoot T s a).enemies.length = s.enemies.length := by
  rw [applyShoot]
  split_ifs
  · exact shootEnemies_length T s.px s.py s.pa s.enemies _
  · rfl

theorem applyEnemyAI_php_inv (T : Trig) (s : GameState) (h0 : 0 ≤ s.php) (h5 : s.php ≤ 5)
    (hlive : s.gameOver = false → 1 ≤ s.php) :
    0 ≤ (applyEnemyAI T s).php ∧ (applyEnemyAI T s).php ≤ 5 := by
  have h := enemiesAI_accInv T s.px s.py s.enemies
    { php := s.php, message := s.message, gameOver := s.gameOver } ⟨h0, h5, hlive⟩
  exact ⟨h.h0, h.h5⟩

theorem applyEnemyAI_enemyInv (T : Trig) (s : GameState)
    (h : ∀ e ∈ s.enemies, EnemyInv e) :
    ∀ e ∈ (applyEnemyAI T s).enemies, EnemyInv e :=
  fun e he => enemiesAI_enemyInv T s.px s.py s.enemies
    { php := s.php, message := s.message, gameOver := s.gameOver } h e he

theorem applyEnemyAI_elen (T : Trig) (s : GameState) :
    (applyEnemyAI T s).enemies.length = s.enemies.length :=
  enemiesAI_length T s.px s.py s.enemies
    { php := s.php, message := s.message, gameOver := s.gameOver }

/-- The invariant is preserved by the whole non-terminal turn pipeline. -/
theorem pipeline_StateInv (T : Trig) (s1 : GameState) (action : String)
    (px0 : 0 ≤ s1.px) (px16 : s1.px < 16) (py0 : 0 ≤ s1.py) (py10 : s1.py < 10)
    (pa0 : 0 ≤ s1.pa) (php1 : 1 ≤ s1.php) (php5 : s1.php ≤ 5)
    (hgo : s1.gameOver = false)
    (elen : s1.enemies.length = 2) (einv : ∀ e ∈ s1.enemies, EnemyInv e)
    (t0 : 0 ≤ s1.lastInteractionTime) (t13 : s1.lastInteractionTime < 10 ^ 13) :
    StateInv (applyWinCheck (applyEnemyAI T (applyShoot T (applyMovement T (applyTurning
      (applyToggles s1 action))) action))) := by
  obtain ⟨tpx, tpy, tpa, tphp, ten, tgo, _, ttime⟩ := applyToggles_fields s1 action
  obtain ⟨upx, upy, uphp, uen, ugo, _, _, _, _, utime⟩ :=
    applyTurning_fields (applyToggles s1 action)
  have hpa : 0 ≤ (applyTurning (applyToggles s1 action)).pa ∧
      (applyTurning (applyToggles s1 action)).pa < 2 * piQ :=
    applyTurning_pa_bounds _ (by rw [tpa]; exact pa0)
  have hmv : (0 ≤ (applyMovement T (applyTurning (applyToggles s1 action))).px ∧
        (applyMovement T (applyTurning (applyToggles s1 action))).px < 16) ∧
      (0 ≤ (applyMovement T (applyTurning (applyToggles s1 action))).py ∧
        (applyMovement T (applyTurning (applyToggles s1 action))).py < 10) :=
    applyMovement_pos_bounds T _ (by rw [upx, tpx]; exact px0) (by rw [upx, tpx]; exact px16)
      (by rw [upy, tpy]; exact py0) (by rw [upy, tpy]; exact py10)
  obtain ⟨mpa, mphp, men, mgo, _, _, _, _, mtime⟩ :=
    applyMovement_fields T (applyTurning (applyToggles s1 action))
  obtain ⟨spx, spy, spa, sphp, sgo, _, _, _, stime⟩ :=
    applyShoot_fields T (applyMovement T (applyTurning (applyToggles s1 action))) action
  have hshen : ∀ e ∈ (applyShoot T (applyMovement T (applyTurning
      (applyToggles s1 action))) action).enemies, EnemyInv e := by
    apply applyShoot_enemyInv
    rw [men, uen, ten]
    exact einv
  have hshlen : (applyShoot T (applyMovement T (applyTurning
      (applyToggles s1 action))) action).enemies.length = 2 := by
    rw [applyShoot_elen, men, uen, ten]
    exact elen
  have hshphp : (applyShoot T (applyMovement T (applyTurning
      (applyToggles s1 action))) action).php = s1.php := by
    rw [sphp, mphp, uphp, tphp]
  have hshgo : (applyShoot T (applyMovement T (applyTurning
      (applyToggles s1 action))) action).gameOver = false := by
    rw [sgo, mgo, ugo, tgo]
    exact hgo
  have haiphp : 0 ≤ (applyEnemyAI T (applyShoot T (applyMovement T (applyTurning
        (applyToggles s1 action))) action)).php ∧
      (applyEnemyAI T (applyShoot T (applyMovement T (applyTurning
        (applyToggles s1 action))) action)).php ≤ 5 :=
    applyEnemyAI_php_inv T _ (by rw [hshphp]; omega) (by rw [hshphp]; exact php5)
      (fun _ => by rw [hshphp]; exact php1)
  obtain ⟨apx, apy, apa, _, _, _, atime⟩ :=
    applyEnemyAI_fields T (applyShoot T (applyMovement T (applyTurning
      (applyToggles s1 action))) action)
  obtain ⟨wpx, wpy, wpa, wphp, wen, _, _, _, wtime⟩ :=
    applyWinCheck_fields (applyEnemyAI T (applyShoot T (applyMovement T (applyTurning
      (applyToggles s1 action))) action))
  refine ⟨?_, ?_, ?_, ?_, ?_, ?_, ?_, ?_, ?_, ?_, ?_, ?_⟩
  · rw [wpx, apx, spx]
    exact hmv.1.1
  · rw [wpx, apx, spx]
    exact hmv.1.2
  · rw [wpy, apy, spy]
    exact hmv.2.1
  · rw [wpy, apy, spy]
    exact hmv.2.2
  · rw [wpa, apa, spa, mpa]
    exact hpa.1
  · rw [wpa, apa, spa, mpa]
    exact hpa.2
  · rw [wphp]
    exact haiphp.1
  · rw [wphp]
    exact haiphp.2
  · rw [wen, applyEnemyAI_elen]
    exact hshlen
  · intro e he
    rw [wen] at he
    exact applyEnemyAI_enemyInv T _ hshen e he
  · rw [wtime, atime, stime, mtime, utime, ttime]
    exact t0
  · rw [wtime, atime, stime, mtime, utime, ttime]
    exact t13

/-- The invariant is preserved by every turn. -/
theorem update_StateInv (T : Trig) (now : ℤ) (s : GameState) (action : String)
    (hInv : StateInv s) (hn0 : 0 ≤ now) (hn1 : now < 10 ^ 13) :
    StateInv (updateGameState T now s action) := by
  obtain ⟨px0, px16, py0, py10, pa0, pa2pi, php0, php5, elen, einv, t0, t13⟩ := hInv
  rw [updateGameState]
  split_ifs with h1 h2
  · exact ⟨px0, px16, py0, py10, pa0, pa2pi, php0, php5, elen, einv, hn0, hn1⟩
  · exact ⟨px0, px16, py0, py10, pa0, pa2pi, php0, php5, elen, einv, hn0, hn1⟩
  · have hgo : s.gameOver = false := by
      cases hg : s.gameOver with
      | false => rfl
      | true => exact absurd hg h1
    have hphp1 : 1 ≤ s.php := by
      have h2' : ¬(s.php ≤ 0) := h2
      omega
    exact pipeline_StateInv T { s with message := "", lastInteractionTime := now } action
      px0 px16 py0 py10 pa0 hphp1 php5 hgo elen einv hn0 hn1

/-- States reachable from a fresh game by repeated turns, with wall-clock
    timestamps below `10^13` (13 decimal digits, valid through the year
    2286). -/
inductive Reachable : GameState → Prop
  | init : ∀ now : ℤ, 0 ≤ now → now < 10 ^ 13 → Reachable (getInitialGameState now)
  | step : ∀ (T : Trig) (now : ℤ) (s : GameState) (action : String),
      0 ≤ now → now < 10 ^ 13 → Reachable s → Reachable (updateGameState T now s action)

theorem getInitialGameState_eq (now : ℤ) :
    getInitialGameState now =
      { px := 3/2, py := 3/2, pa := piQ/4, php := 5,
        enemies := [{ x := 27/2, y := 5/2, hp := 3, angle := 0, isActive := true },
                    { x := 15/2, y := 13/2, hp := 3, angle := 0, isActive := true }],
        message := "Game started! Use buttons to play.", gameOver := false,
        isMovingForward := false, isTurningLeft := false, isTurningRight := false,
        lastInteractionTime := now } := rfl

theorem init_StateInv (now : ℤ) (h0 : 0 ≤ now) (h1 : now < 10 ^ 13) :
    StateInv (getInitialGameState now) := by
  rw [getInitialGameState_eq]
  refine ⟨?_, ?_, ?_, ?_, ?_, ?_, ?_, ?_, ?_, ?_, ?_, ?_⟩ <;> dsimp only
  · decide
  · decide
  · decide
  · decide
  · decide
  · decide
  · decide
  · decide
  · decide
  · intro e he
    simp only [List.mem_cons, List.not_mem_nil, or_false] at he
    rcases he with rfl | rfl
    · exact ⟨Or.inl ⟨by norm_num, by norm_num⟩, Or.inl ⟨by norm_num, by norm_num⟩,
        by norm_num, by norm_num, fun _ => by norm_num⟩
    · exact ⟨Or.inl ⟨by norm_num, by norm_num⟩, Or.inl ⟨by norm_num, by norm_num⟩,
        by norm_num, by norm_num, fun _ => by norm_num⟩
  · exact h0
  · exact h1

theorem reachable_StateInv (s : GameState) (h : Reachable s) : StateInv s := by
  induction h with
  | init now h0 h1 => exact init_StateInv now h0 h1
  | step T now s action h0 h1 _ ih => exact update_StateInv T now s action ih h0 h1

/-! ### The serialized length bound (claim C9) -/

theorem serializeGameState_two (s : GameState) (e1 e2 : EnemyState)
    (h : s.enemies = [e1, e2]) :
    serializeGameState s = List.intercalate ['|']
      [toFixedChars s.px 2, toFixedChars s.py 2, toFixedChars s.pa 3, intToChars s.php,
       boolChar s.isMovingForward, boolChar s.isTurningLeft, boolChar s.isTurningRight,
       toFixedChars e1.x 2, toFixedChars e1.y 2, intToChars e1.hp, boolChar e1.isActive,
       toFixedChars e2.x 2, toFixedChars e2.y 2, intToChars e2.hp, boolChar e2.isActive,
       boolChar s.gameOver, intToChars s.lastInteractionTime] := by
  rw [serializeGameState, h]
  rfl

theorem intercalate_pipe_length (ps : List (List Char)) (p : List Char) :
    (List.intercalate ['|'] (p :: ps)).length =
      p.length + ((ps.map List.length).sum + ps.length) := by
  induction ps generalizing p with
  | nil => simp [List.intercalate]
  | cons q t ih =>
    rw [intercalate_cons_cons, List.length_append, List.length_append, ih q]
    simp only [List.map_cons, List.sum_cons, List.length_cons, List.length_nil]
    omega

/-- The per-coordinate serialized length under the invariant. -/
theorem coordChars_len (q : ℚ) (h : (0 ≤ q ∧ q < 16) ∨ q = -1) :
    (toFixedChars q 2).length ≤ 5 := by
  rcases h with ⟨h0, h1⟩ | rfl
  · exact toFixedChars_len_pos2 q h0 h1
  · rw [toFixedChars_len_neg1]

theorem serialize_length_le (s : GameState) (hInv : StateInv s) :
    (serializeGameState s).length ≤ 73 := by
  obtain ⟨px0, px16, py0, py10, pa0, pa2pi, php0, php5, elen, einv, t0, t13⟩ := hInv
  obtain ⟨e1, e2, henem⟩ : ∃ e1 e2, s.enemies = [e1, e2] := by
    cases hs : s.enemies with
    | nil => rw [hs] at elen; simp at elen
    | cons a t => cases t with
      | nil => rw [hs] at elen; simp at elen
      | cons b t2 => cases t2 with
        | nil => exact ⟨a, b, rfl⟩
        | cons c t3 => rw [hs] at elen; simp at elen
  obtain ⟨he1, he2⟩ : EnemyInv e1 ∧ EnemyInv e2 := by
    constructor
    · exact einv e1 (by rw [henem]; exact List.mem_cons_self _ _)
    · exact einv e2 (by rw [henem]; simp)
  rw [serializeGameState_two s e1 e2 henem, intercalate_pipe_length]
  simp only [List.map_cons, List.map_nil, List.sum_cons, List.sum_nil, List.length_cons,
    List.length_nil]
  have l1 := toFixedChars_len_pos2 s.px px0 px16
  have l2 := toFixedChars_len_pos2 s.py py0 (lt_trans py10 (by norm_num))
  have l3 := toFixedChars_len_pa s.pa pa0 pa2pi
  have l4 := intToChars_len_le s.php 1 php0 (by omega)
    (by norm_num)
  have l5 := boolChar_length s.isMovingForward
  have l6 := boolChar_length s.isTurningLeft
  have l7 := boolChar_length s.isTurningRight
  have l8 := coordChars_len e1.x he1.hx
  have l9 : (toFixedChars e1.y 2).length ≤ 5 := by
    rcases he1.hy with ⟨h0a, h1a⟩ | hs
    · exact toFixedChars_len_pos2 e1.y h0a (lt_trans h1a (by norm_num))
    · rw [hs, toFixedChars_len_neg1]
  have l10 := intToChars_len_le e1.hp 1 he1.hp0 (by have := he1.hp3; omega) (by norm_num)
  have l11 := boolChar_length e1.isActive
  have l12 := coordChars_len e2.x he2.hx
  have l13 : (toFixedChars e2.y 2).length ≤ 5 := by
    rcases he2.hy with ⟨h0a, h1a⟩ | hs
    · exact toFixedChars_len_pos2 e2.y h0a (lt_trans h1a (by norm_num))
    · rw [hs, toFixedChars_len_neg1]
  have l14 := intToChars_len_le e2.hp 1 he2.hp0 (by have := he2.hp3; omega) (by norm_num)
  have l15 := boolChar_length e2.isActive
  have l16 := boolChar_length s.gameOver
  have l17 := intToChars_len_le s.lastInteractionTime 13 t0 t13 (by norm_num)
  omega

/-! ## The claims -/

/-- A concrete state whose status message is nonempty, used to exhibit the
    message loss of the codec round trip. -/
def c1State : GameState :=
  { px := 3/2, py := 5/2, pa := 1/2, php := 5,
    enemies := [{ x := 2, y := 2, hp := 3, angle := 0, isActive := true },
                { x := -1, y := -1, hp := 0, angle := 0, isActive := false }],
    message := "Hello!", gameOver := false, isMovingForward := false,
    isTurningLeft := false, isTurningRight := false, lastInteractionTime := 123 }

/-- C1 (counterexample): the round trip does not reproduce the `message`
    field: `serializeGameState` never emits it, and `deserializeGameState`
    always resets it to the empty string.  Here the input state's message
    is `"Hello!"` but the decoded state's message is `""`. -/
theorem C1_counterexample :
    c1State.message = "Hello!" ∧
    (deserializeGameState (serializeGameState c1State)).map RawGameState.message =
      some "" := by
  constructor
  · rfl
  · decide

/-- C1 (amended): for every `GameState` with the fixed enemy count 2,
    decoding the encoding succeeds and reproduces the state up to the
    declared precision — player position to 2 decimals, angle to 3
    decimals, per-enemy positions to 2 decimals, and health, flags,
    per-enemy health/active, terminal flag and timestamp exactly — except
    that the `message` field is reset to `""` and each enemy's `angle`
    field is reset to `0` (neither is serialized). -/
theorem C1_round_trip (s : GameState) (h2 : s.enemies.length = 2) :
    deserializeGameState (serializeGameState s) = some (rawRound s) := by
  obtain ⟨e1, e2, henem⟩ : ∃ e1 e2, s.enemies = [e1, e2] := by
    cases hs : s.enemies with
    | nil => rw [hs] at h2; simp at h2
    | cons a t => cases t with
      | nil => rw [hs] at h2; simp at h2
      | cons b t2 => cases t2 with
        | nil => exact ⟨a, b, rfl⟩
        | cons c t3 => rw [hs] at h2; simp at h2
  exact roundtrip_core s e1 e2 henem

/-- C1 witness: the round-trip law evaluated at a concrete state. -/
theorem C1_round_trip_witness :
    (getInitialGameState 123).enemies.length = 2 ∧
    deserializeGameState (serializeGameState (getInitialGameState 123)) =
      some (rawRound (getInitialGameState 123)) :=
  ⟨by decide, C1_round_trip (getInitialGameState 123) (by decide)⟩

/-- A token whose second field (`py`) is unparseable while `px`, `php` and
    the enemy `x` fields parse fine. -/
def c2Token : List Char := "1.50|z|0.79|5|0|0|0|2.50|2.50|3|1|8.50|6.50|3|1|0|123".data

/-- C2 (counterexample): `deserializeGameState` does not fail closed: on a
    token whose `py` field parses to `NaN` it still returns a state (not
    `null`), with the `NaN` stored in `py` — a partially-populated state.
    Only `px`, `php` and the enemy `x` fields are validated. -/
theorem C2_counterexample :
    deserializeGameState c2Token ≠ none ∧
    (deserializeGameState c2Token).map RawGameState.py = some none := by
  constructor
  · decide
  · decide

/-- C2 (amended): decoding returns the failure signal `none` exactly when
    the parsed `px` field, the parsed `php` field, or one of the parsed
    enemy `x` fields is `NaN`.  `NaN` in `py`, `pa`, enemy `y`/`hp`, the
    timestamp, or a missing enemy sub-record (padded with an inert default)
    does not cause failure. -/
theorem C2_fail_closed_amended (cs : List Char) :
    deserializeGameState cs = none ↔
      ((pFloat (cs.splitOn '|') 0).isNone = true ∨
       (pInt (cs.splitOn '|') 3).isNone = true ∨
       ((readEnemies (cs.splitOn '|') 2 7).1.any fun e => e.x.isNone) = true) :=
  deserialize_none_iff cs

/-- C3: starting from any state in which the player and every enemy stand
    on a non-wall position, one turn of `updateGameState` (for every trig
    oracle, timestamp and action) never places the player or any enemy on a
    wall tile: each axis move is individually rejected by `isWall`. -/
theorem C3_no_wall_clipping (T : Trig) (now : ℤ) (s : GameState) (action : String)
    (hp : isWall s.px s.py = false)
    (he : ∀ e ∈ s.enemies, isWall e.x e.y = false) :
    isWall (updateGameState T now s action).px (updateGameState T now s action).py = false ∧
    ∀ e ∈ (updateGameState T now s action).enemies, isWall e.x e.y = false :=
  update_notWall T now s action hp he

/-- C3 witness: wall safety evaluated at the initial state. -/
theorem C3_no_wall_clipping_witness :
    isWall (getInitialGameState 0).px (getInitialGameState 0).py = false ∧
    (∀ e ∈ (getInitialGameState 0).enemies, isWall e.x e.y = false) ∧
    (isWall (updateGameState trivialTrig 0 (getInitialGameState 0) "noop").px
        (updateGameState trivialTrig 0 (getInitialGameState 0) "noop").py = false ∧
      ∀ e ∈ (updateGameState trivialTrig 0 (getInitialGameState 0) "noop").enemies,
        isWall e.x e.y = false) :=
  ⟨by decide, by decide,
    C3_no_wall_clipping trivialTrig 0 (getInitialGameState 0) "noop" (by decide) (by decide)⟩

/-- C4 (counterexample): `getMapTile` does not always return one of the
    enumerated tile values: at the player spawn tile it returns the raw
    marker `'P'`, and at column 15 of row 4 — whose layout string is only
    15 characters long — the lookup yields `undefined` (modeled `none`). -/
theorem C4_counterexample :
    getMapTile (3/2) (3/2) = some 'P' ∧ getMapTile (31/2) (9/2) = none := by
  constructor
  · decide
  · decide

/-- C4 (amended): `getMapTile` is total and returns the wall tile `'#'`
    whenever the floored indices fall outside the 16 by 10 grid; for
    in-grid indices it returns the raw layout character — `'#'`, `'.'`,
    `'P'` or `'E'` — or `none` for the missing 16th column of the short
    row 4. -/
theorem C4_tile_amended (x y : ℚ) :
    ((⌊x⌋ < 0 ∨ 16 ≤ ⌊x⌋ ∨ ⌊y⌋ < 0 ∨ 10 ≤ ⌊y⌋) → getMapTile x y = some '#') ∧
    (getMapTile x y = some '#' ∨ getMapTile x y = some '.' ∨ getMapTile x y = some 'P' ∨
      getMapTile x y = some 'E' ∨ getMapTile x y = none) := by
  constructor
  · intro hoob
    simp only [getMapTile, TILE_SIZE, div_one, MAP_WIDTH, MAP_HEIGHT]
    rw [if_pos hoob]
  · by_cases hoob : ⌊x⌋ < 0 ∨ 16 ≤ ⌊x⌋ ∨ ⌊y⌋ < 0 ∨ 10 ≤ ⌊y⌋
    · left
      simp only [getMapTile, TILE_SIZE, div_one, MAP_WIDTH, MAP_HEIGHT]
      rw [if_pos hoob]
    · push_neg at hoob
      obtain ⟨h1, h2, h3, h4⟩ := hoob
      simp only [getMapTile, TILE_SIZE, div_one, MAP_WIDTH, MAP_HEIGHT]
      rw [if_neg (by push_neg; exact ⟨h1, h2, h3, h4⟩)]
      have hi : ⌊x⌋.toNat < 16 := by omega
      have hj : ⌊y⌋.toNat < 10 := by omega
      simpa using mapChar_cases ⟨⌊y⌋.toNat, hj⟩ ⟨⌊x⌋.toNat, hi⟩

/-- C4 witness: the fail-safe branch evaluated out of bounds. -/
theorem C4_tile_amended_witness : getMapTile 20 0 = some '#' :=
  (C4_tile_amended 20 0).1 (by decide)

/-- C5: a terminal state is absorbing — for every trig oracle, timestamp
    and action, the turn leaves every field unchanged except the display
    message and the last-interaction timestamp. -/
theorem C5_terminal_absorbing (T : Trig) (now : ℤ) (s : GameState) (action : String)
    (h : s.gameOver = true) :
    updateGameState T now s action =
      { s with message := "Game Over! Start a new game with /doom.",
               lastInteractionTime := now } :=
  update_gameOver T now s action h

/-- A concrete terminal state. -/
def c5State : GameState :=
  { px := 3/2, py := 3/2, pa := 1, php := 0,
    enemies := [{ x := 27/2, y := 5/2, hp := 3, angle := 0, isActive := true },
                { x := -1, y := -1, hp := 0, angle := 0, isActive := false }],
    message := "You died! Game Over.", gameOver := true, isMovingForward := true,
    isTurningLeft := false, isTurningRight := false, lastInteractionTime := 3 }

/-- C5 witness: absorption evaluated at a concrete terminal state. -/
theorem C5_terminal_absorbing_witness :
    c5State.gameOver = true ∧
    updateGameState trivialTrig 7 c5State "shoot" =
      { c5State with message := "Game Over! Start a new game with /doom.",
                     lastInteractionTime := 7 } :=
  ⟨by decide, C5_terminal_absorbing trivialTrig 7 c5State "shoot" (by decide)⟩

/-- C6 (counterexample): in `src/main.ts` the enemy AI does not step one
    tile along the dominant axis: after one full turn from the initial
    state, both enemies are active yet neither has moved at all (each is at
    Euclidean distance at least 5 from the player, outside the aggro
    radius; inside the radius the step length would be
    `ENEMY_MOVE_SPEED = 0.15`, not one tile). -/
theorem C6_counterexample :
    ((updateGameState trivialTrig 0 (getInitialGameState 0) "noop").enemies.map
      (fun e => (e.x, e.y, e.isActive))) =
    [(27/2, 5/2, true), (15/2, 13/2, true)] := by decide

/-- C6 (amended): the one-tile dominant-axis stepping the claim describes
    is the chase AI of the maze variant (`src/unnamed/part_001`, red
    cuboid): if the horizontal distance dominates, it steps one tile along
    X when clear, else one tile along Y; if the vertical distance dominates
    (or ties), it steps one tile along Y when clear, else one tile along X. -/
theorem C6_dominant_axis_amended (px py cx cy : ℚ) :
    (|py - cy| < |px - cx| →
      isWallMaze (cx + ratSign (px - cx) * TILE_SIZE) cy = false →
      redCuboidAI px py cx cy = (cx + ratSign (px - cx) * TILE_SIZE, cy)) ∧
    (|py - cy| < |px - cx| →
      isWallMaze (cx + ratSign (px - cx) * TILE_SIZE) cy = true →
      0 < |py - cy| →
      isWallMaze cx (cy + ratSign (py - cy) * TILE_SIZE) = false →
      redCuboidAI px py cx cy = (cx, cy + ratSign (py - cy) * TILE_SIZE)) ∧
    (|px - cx| ≤ |py - cy| →
      0 < |py - cy| →
      isWallMaze cx (cy + ratSign (py - cy) * TILE_SIZE) = false →
      redCuboidAI px py cx cy = (cx, cy + ratSign (py - cy) * TILE_SIZE)) ∧
    (|px - cx| ≤ |py - cy| →
      0 < |px - cx| →
      isWallMaze cx (cy + ratSign (py - cy) * TILE_SIZE) = true →
      isWallMaze (cx + ratSign (px - cx) * TILE_SIZE) cy = false →
      redCuboidAI px py cx cy = (cx + ratSign (px - cx) * TILE_SIZE, cy)) :=
  redCuboidAI_cases px py cx cy

/-- C6 witness: the maze chaser at (10.5, 4.5) with the player at
    (1.5, 1.5): X is dominant but blocked, so it steps one tile up the Y
    axis. -/
theorem C6_dominant_axis_witness :
    redCuboidAI (3/2) (3/2) (21/2) (9/2) = (21/2, 7/2) := by
  have h := (C6_dominant_axis_amended (3/2) (3/2) (21/2) (9/2)).2.1
    (by decide) (by decide) (by decide) (by decide)
  rw [h]
  decide

/-- A quiescent non-terminal state with both enemy slots inactive. -/
def c7State : GameState :=
  { px := 3/2, py := 3/2, pa := 1, php := 5,
    enemies := [{ x := -1, y := -1, hp := 0, angle := 0, isActive := false },
                { x := -1, y := -1, hp := 0, angle := 0, isActive := false }],
    message := "", gameOver := false, isMovingForward := false, isTurningLeft := false,
    isTurningRight := false, lastInteractionTime := 0 }

/-- C7 (counterexample): an unrecognized action is not a pure timestamp
    refresh: the rest of the turn pipeline still runs.  Here the win check
    flips `gameOver` from `false` to `true` during a turn driven by the
    unrecognized action `"unknown_action"`. -/
theorem C7_counterexample :
    c7State.gameOver = false ∧
    (updateGameState trivialTrig 0 c7State "unknown_action").gameOver = true := by
  constructor
  · rfl
  · decide

/-- C7 (amended): an action outside the recognized vocabulary has no
    action-specific effect: any two unrecognized actions produce the same
    turn, and the movement-intent flags are unchanged.  The rest of the
    pipeline (message reset, flag-driven turning/movement, enemy AI,
    terminal checks, timestamp) still runs, so other fields may change. -/
theorem C7_unrecognized_amended (T : Trig) (now : ℤ) (s : GameState) (a b : String)
    (ha : a ∉ ["toggle_forward", "toggle_turn_left", "toggle_turn_right", "shoot"])
    (hb : b ∉ ["toggle_forward", "toggle_turn_left", "toggle_turn_right", "shoot"]) :
    updateGameState T now s a = updateGameState T now s b ∧
    (updateGameState T now s a).isMovingForward = s.isMovingForward ∧
    (updateGameState T now s a).isTurningLeft = s.isTurningLeft ∧
    (updateGameState T now s a).isTurningRight = s.isTurningRight := by
  simp only [List.mem_cons, List.not_mem_nil, or_false, not_or] at ha hb
  obtain ⟨ha1, ha2, ha3, ha4⟩ := ha
  obtain ⟨hb1, hb2, hb3, hb4⟩ := hb
  refine ⟨update_unrec_eq T now s a b ha1 ha2 ha3 ha4 hb1 hb2 hb3 hb4, ?_, ?_, ?_⟩
  · exact (update_unrec_flags T now s a ha1 ha2 ha3 ha4).1
  · exact (update_unrec_flags T now s a ha1 ha2 ha3 ha4).2.1
  · exact (update_unrec_flags T now s a ha1 ha2 ha3 ha4).2.2

/-- C7 witness: two unrecognized actions evaluated on a concrete state. -/
theorem C7_unrecognized_amended_witness :
    ("abc" : String) ∉ ["toggle_forward", "toggle_turn_left", "toggle_turn_right", "shoot"] ∧
    ("xyz" : String) ∉ ["toggle_forward", "toggle_turn_left", "toggle_turn_right", "shoot"] ∧
    (updateGameState trivialTrig 5 c7State "abc" = updateGameState trivialTrig 5 c7State "xyz" ∧
      (updateGameState trivialTrig 5 c7State "abc").isMovingForward = c7State.isMovingForward ∧
      (updateGameState trivialTrig 5 c7State "abc").isTurningLeft = c7State.isTurningLeft ∧
      (updateGameState trivialTrig 5 c7State "abc").isTurningRight = c7State.isTurningRight) :=
  ⟨by decide, by decide,
    C7_unrecognized_amended trivialTrig 5 c7State "abc" "xyz" (by decide) (by decide)⟩

/-- C8 (counterexample): the center column's ray angle is not the facing
    angle: because the interpolation uses `col / 21` instead of
    `col / 20`, column 10 is offset by `-FOV/42` from the view axis, so the
    fish-eye correction factor there is `cos(FOV/42) ≠ 1`. -/
theorem C8_counterexample : rayAngle 0 10 ≠ 0 ∧ rayAngle 0 10 = -(FOV / 42) := by
  constructor
  · decide
  · decide

/-- C8 (amended): for every oracle and pose, the ray cast for center
    column 10 uses the angle `pa - FOV/42`, and the recorded corrected
    distance is the raw march distance multiplied by `cos(-(FOV/42))` —
    the correction factor at the center column is `cos(FOV/42)`, not
    exactly 1. -/
theorem C8_center_column_amended (T : Trig) (px py pa : ℚ) :
    rayAngle pa 10 = pa - FOV / 42 ∧
    castRay T px py pa 10 =
      (rayMarch px py (T.cos (pa - FOV / 42)) (T.sin (pa - FOV / 42)) 201 0).map
        (fun d => d * T.cos (-(FOV / 42))) :=
  ⟨rayAngle_center pa, castRay_center T px py pa⟩

/-- C9: every state reachable from `getInitialGameState` by repeated
    `updateGameState` turns (with 13-digit wall-clock timestamps)
    serializes to a token that, together with the longest action prefix
    `"doom_toggle_turn_right_"` (23 characters), stays within the
    100-character ceiling. -/
theorem C9_token_length (s : GameState) (h : Reachable s) :
    (serializeGameState s).length + ("doom_toggle_turn_right_" : String).length ≤ 100 := by
  have hlen := serialize_length_le s (reachable_StateInv s h)
  have h23 : ("doom_toggle_turn_right_" : String).length = 23 := rfl
  omega

/-- C9 witness: the bound evaluated at the initial state. -/
theorem C9_token_length_witness :
    (serializeGameState (getInitialGameState 0)).length +
      ("doom_toggle_turn_right_" : String).length ≤ 100 :=
  C9_token_length (getInitialGameState 0) (Reachable.init 0 (by norm_num) (by norm_num))

/-- C10: in the per-enemy AI step of `updateGameState`, an active enemy at
    squared distance at least 25 (5 tiles or more) from the player neither
    moves nor touches the accumulator (no damage, no message, no
    game-over); contact damage of exactly 1 health point is inflicted
    exactly when the squared distance is below (0.5)², and in that case the
    enemy does not move.  (`Math.sqrt(d) < c` comparisons are modeled by
    `d < c²`.) -/
theorem C10_aggro_and_contact (T : Trig) (px py : ℚ) (acc : AIAcc) (e : EnemyState)
    (hact : e.isActive = true) (hgo : acc.gameOver = false) :
    ((5 * TILE_SIZE) ^ 2 ≤ (px - e.x) ^ 2 + (py - e.y) ^ 2 →
        enemyAI1 T px py acc e = (acc, e)) ∧
    ((px - e.x) ^ 2 + (py - e.y) ^ 2 < (1/2 * TILE_SIZE) ^ 2 →
        (enemyAI1 T px py acc e).1.php = acc.php - 1 ∧ (enemyAI1 T px py acc e).2 = e) ∧
    ((1/2 * TILE_SIZE) ^ 2 ≤ (px - e.x) ^ 2 + (py - e.y) ^ 2 →
        (enemyAI1 T px py acc e).1.php = acc.php) := by
  have hc1 : ¬(e.isActive = false ∨ acc.gameOver = true) := by
    simp [hact, hgo]
  refine ⟨?_, ?_, ?_⟩
  · intro hfar
    have hn1 : ¬((px - e.x) ^ 2 + (py - e.y) ^ 2 < (1/2 * TILE_SIZE) ^ 2) := by
      rw [TILE_SIZE] at hfar ⊢
      push_neg
      nlinarith
    have hn2 : ¬((px - e.x) ^ 2 + (py - e.y) ^ 2 < (5 * TILE_SIZE) ^ 2) := not_lt.mpr hfar
    simp only [enemyAI1, if_neg hc1, if_neg hn1, if_neg hn2]
  · intro hnear
    simp only [enemyAI1, if_neg hc1, if_pos hnear]
    by_cases h3 : acc.php - 1 ≤ 0
    · simp only [if_pos h3]
      exact ⟨by trivial, by trivial⟩
    · simp only [if_neg h3]
      exact ⟨by trivial, by trivial⟩
  · intro hge
    have hn1 : ¬((px - e.x) ^ 2 + (py - e.y) ^ 2 < (1/2 * TILE_SIZE) ^ 2) := not_lt.mpr hge
    simp only [enemyAI1, if_neg hc1, if_neg hn1]
    by_cases h4 : (px - e.x) ^ 2 + (py - e.y) ^ 2 < (5 * TILE_SIZE) ^ 2
    · simp only [if_pos h4]
    · simp only [if_neg h4]

/-- C10 witness: an active enemy 12 tiles away is untouched by its AI
    step. -/
theorem C10_aggro_and_contact_witness :
    enemyAI1 trivialTrig (3/2) (3/2) { php := 5, message := "", gameOver := false }
      { x := 27/2, y := 5/2, hp := 3, angle := 0, isActive := true } =
    ({ php := 5, message := "", gameOver := false },
     { x := 27/2, y := 5/2, hp := 3, angle := 0, isActive := true }) :=
  (C10_aggro_and_contact trivialTrig (3/2) (3/2)
    { php := 5, message := "", gameOver := false }
    { x := 27/2, y := 5/2, hp := 3, angle := 0, isActive := true }
    (by decide) (by decide)).1 (by decide)
